import Mathlib

/-!
Verification development for the NEXUS Telegram-Claude bridge
(`bridge.js`, `watchdog.js`).

Modelling conventions:
* JavaScript strings are modelled as `List Char` (abbreviated `Str`).
* Each JavaScript regex `replace` pass of `formatForTelegram` is embedded as a
  fuelled scanner (`applyRegex`): at every position a match is attempted
  (`tm` = "try match", mirroring the concrete regex, including greedy /
  backtracking behaviour); on success the replacement is emitted and the scan
  resumes after the consumed text, otherwise the scan advances one character.
  The fuel equals the input length, which bounds the number of scan steps
  (every step consumes at least one character), so the fuel never runs out.
* External effects (Claude SDK execution, file system, wall clock) are
  supplied through an `Env` record; floating-point cost rendering and
  wall-clock interpolations are abstracted as opaque strings in `Env` since
  no claim depends on them.
-/

set_option maxRecDepth 8192

abbrev Str := List Char

/-- JavaScript `\s` / `String.prototype.trim` whitespace (the ASCII part plus
NBSP and BOM; the remaining exotic Unicode space characters never occur in any
input these theorems touch). -/
def isJsWs (c : Char) : Bool :=
  c = ' ' || c = '\t' || c = '\n' || c = '\r' || c = '\x0b' || c = '\x0c' ||
  c = ' ' || c = '﻿'

/-- Remove trailing JS whitespace (second half of `String.prototype.trim`). -/
def trimEndChars (l : Str) : Str :=
  (l.reverse.dropWhile isJsWs).reverse

/-- JavaScript `String.prototype.trim`. -/
def trimChars (l : Str) : Str :=
  trimEndChars (l.dropWhile isJsWs)

/-- JavaScript `String.prototype.startsWith`. -/
def startsWithChars : Str → Str → Bool
  | [], _ => true
  | _ :: _, [] => false
  | a :: as, b :: bs => if a = b then startsWithChars as bs else false

/-- Decimal rendering of a natural number (JS template interpolation). -/
def natStr (n : Nat) : Str := (Nat.repr n).data

/-- Decimal rendering of an integer (JS `String(chatId)` / interpolation). -/
def intStr : Int → Str
  | .ofNat n => natStr n
  | .negSucc n => '-' :: natStr (n + 1)

/-- Last character of `consumed` if non-empty, else the previous character;
used to track the character preceding the current regex scan position. -/
def lastOr (consumed : Str) (prev : Option Char) : Option Char :=
  match consumed.getLast? with
  | some c => some c
  | none => prev

/-- Is the scan position at a line start (string start or just after `'\n'`)?
This is where `^` matches for a `/m` regex. -/
def lineStart : Option Char → Bool
  | none => true
  | some c => c = '\n'

/-- Generic fuelled scanner for a JavaScript global-`replace` pass.
`tm prev l` attempts to match the concrete regex at the current position
(`prev` = character before the position) and on success returns
`(replacement, consumed, remainder)` with `l = consumed ++ remainder` and
`consumed ≠ []`.  Fuel = input length suffices because every step consumes at
least one character. -/
def applyRegex (tm : Option Char → Str → Option (Str × Str × Str)) :
    Nat → Option Char → Str → Str
  | 0, _, l => l
  | _ + 1, _, [] => []
  | fuel + 1, prev, c :: rest =>
    match tm prev (c :: rest) with
    | some (repl, consumed, remainder) =>
        repl ++ applyRegex tm fuel (lastOr consumed prev) remainder
    | none => c :: applyRegex tm fuel (some c) rest

/-- Run one regex pass over a whole string. -/
def runScan (tm : Option Char → Str → Option (Str × Str × Str)) (l : Str) : Str :=
  applyRegex tm l.length none l

/-! ### formatForTelegram: the individual passes (bridge.js lines 40-114) -/

/-- bridge.js `escapeHtml`, first replace: `&` → `&amp;`. -/
def ampRepl (c : Char) : Str := if c = '&' then "&amp;".data else [c]

/-- bridge.js `escapeHtml`, second replace: `<` → `&lt;`. -/
def ltRepl (c : Char) : Str := if c = '<' then "&lt;".data else [c]

/-- bridge.js `escapeHtml`, third replace: `>` → `&gt;`. -/
def gtRepl (c : Char) : Str := if c = '>' then "&gt;".data else [c]

/-- bridge.js `escapeHtml` (three successive global character replaces). -/
def escapeHtml (l : Str) : Str :=
  ((l.flatMap ampRepl).flatMap ltRepl).flatMap gtRepl

/-- Pass 1: normalise mathematical-alphanumeric Unicode letters
(`/[\u{1D400}-\u{1D7FF}]/gu` with the per-character replacement function). -/
def mathFontChar (c : Char) : Char :=
  let n := c.toNat
  if 0x1D400 ≤ n ∧ n ≤ 0x1D7FF then
    if 0x1D400 ≤ n ∧ n ≤ 0x1D419 then Char.ofNat (n - 0x1D400 + 65)
    else if 0x1D41A ≤ n ∧ n ≤ 0x1D433 then Char.ofNat (n - 0x1D41A + 97)
    else if 0x1D434 ≤ n ∧ n ≤ 0x1D44D then Char.ofNat (n - 0x1D434 + 65)
    else if 0x1D44E ≤ n ∧ n ≤ 0x1D467 then Char.ofNat (n - 0x1D44E + 97)
    else c
  else c

/-- Character class `[-:\s|]` of the markdown-table separator line. -/
def isTableSepChar (c : Char) : Bool :=
  c = '-' || c = ':' || isJsWs c || c = '|'

/-- Greedy backtracking for `[-:\s|]+\|\n` inside the maximal class run:
the last `p ≥ 1` with `run[p] = '|'` and `run[p+1] = '\n'` (both characters
belong to the class, so they necessarily sit inside the maximal run). -/
def lastSepBar (run : Str) : Option Nat :=
  (List.range run.length).reverse.find? (fun p =>
    decide (1 ≤ p) && (run.get? p == some '|') && (run.get? (p + 1) == some '\n'))

/-- Greedy backtracking for a table row `\|[^\n]+\|`: the last `p ≥ 1` with
`line[p] = '|'` (`line` is the text after the row's opening bar, up to the
newline). -/
def lastRowBar (line : Str) : Option Nat :=
  (List.range line.length).reverse.find? (fun p =>
    decide (1 ≤ p) && (line.get? p == some '|'))

/-- The rows group `((?:\|[^\n]+\|\n?)*)` of the table regex: returns the
consumed rows text and the remainder.  A row whose closing bar sits mid-line
ends the group there (the `\n?` matches empty and no further row can start,
since no `'|'` follows the last bar of the line). -/
def matchRows : Nat → Str → Str × Str
  | 0, l => ([], l)
  | fuel + 1, l =>
    match l with
    | '|' :: t =>
      let line := t.takeWhile (fun c => c != '\n')
      match lastRowBar line with
      | some p =>
        if p + 1 = line.length then
          match t.drop line.length with
          | '\n' :: rest2 =>
            let (more, fin) := matchRows fuel rest2
            ('|' :: line ++ '\n' :: more, fin)
          | rest2 => ('|' :: line, rest2)
        else
          ('|' :: line.take (p + 1), line.drop (p + 1) ++ t.drop line.length)
      | none => ([], l)
    | _ => ([], l)

/-- Replacement function of the table conversion (bridge.js lines 62-74):
`headerCells.join(' | ')`, a 40-dash rule, then each row's cells joined. -/
def joinSep (sep : Str) : List Str → Str
  | [] => []
  | [x] => x
  | x :: y :: ys => x ++ sep ++ joinSep sep (y :: ys)

/-- Replacement for one matched markdown table (bridge.js lines 62-74). -/
def tableRepl (header rowsText : Str) : Str :=
  let headerCells := ((header.splitOn '|').map trimChars).filter (fun s => !s.isEmpty)
  let rowLines := (((trimChars rowsText).splitOn '\n')).map
      (fun row => ((row.splitOn '|').map trimChars).filter (fun s => !s.isEmpty))
  let r1 := joinSep " | ".data headerCells ++ ['\n']
  let r2 := r1 ++ List.replicate 40 '-' ++ ['\n']
  rowLines.foldl (fun acc cells => acc ++ joinSep " | ".data cells ++ ['\n']) r2

/-- Pass 2: markdown-table conversion
`/\|([^\n]+)\|\n\|[-:\s|]+\|\n((?:\|[^\n]+\|\n?)*)/g`.
The greedy `[^\n]+` of the header backtracks to the last `'|'` of the line;
the separator's greedy class run backtracks to the last `"|\n"` inside it. -/
def tmTable (_prev : Option Char) (l : Str) : Option (Str × Str × Str) :=
  match l with
  | [] => none
  | c :: t =>
    if c = '|' then
      let line := t.takeWhile (fun x => x != '\n')
      match t.drop line.length with
      | '\n' :: rest2 =>
        if 2 ≤ line.length ∧ line.getLast? = some '|' then
          let header := line.dropLast
          match rest2 with
          | '|' :: u =>
            let run := u.takeWhile isTableSepChar
            match lastSepBar run with
            | some p =>
              let afterSep := run.drop (p + 2) ++ u.drop run.length
              let (rowsText, fin) := matchRows afterSep.length afterSep
              some (tableRepl header rowsText,
                    '|' :: line ++ '\n' :: '|' :: run.take (p + 2) ++ rowsText,
                    fin)
            | none => none
          | _ => none
        else none
      | _ => none
    else none

/-- Pass 3: remove standalone separator lines `/^\|[-:\s|]+\|$/gm` (replaced
by the empty string; `$` is zero-width, so a trailing newline stays). -/
def tmSepLine (prev : Option Char) (l : Str) : Option (Str × Str × Str) :=
  if lineStart prev then
    match l with
    | [] => none
    | c :: t =>
      if c = '|' then
        let run := t.takeWhile isTableSepChar
        let runEnd := t.drop run.length
        match (List.range run.length).reverse.find? (fun p =>
            decide (1 ≤ p) && (run.get? p == some '|') &&
            ((decide (p + 1 = run.length) && runEnd.isEmpty) ||
             (run.get? (p + 1) == some '\n'))) with
        | some p =>
            some ([], '|' :: run.take (p + 1), run.drop (p + 1) ++ runEnd)
        | none => none
      else none
  else none

/-- `\w` character class. -/
def isWordChar (c : Char) : Bool := c.isAlpha || c.isDigit || c = '_'

/-- First index at which a triple backtick starts. -/
def findTriple (l : Str) : Option Nat :=
  (List.range l.length).find? (fun k => startsWithChars "\x60\x60\x60".data (l.drop k))

/-- Pass 4: fenced code blocks `/\x60\x60\x60(\w*)\n?([\s\S]*?)\x60\x60\x60/g`
→ `<pre>code.trim()</pre>` (the lazy `[\s\S]*?` stops at the first closing
triple backtick). -/
def tmCodeBlock (_prev : Option Char) (l : Str) : Option (Str × Str × Str) :=
  match l with
  | [] => none
  | c :: t =>
    if c = '\x60' then
      match t with
      | '\x60' :: '\x60' :: u =>
        let w := u.takeWhile isWordChar
        let u1 := u.drop w.length
        let (nl, u2) :=
          match u1 with
          | '\n' :: r => ((['\n'] : Str), r)
          | r => (([] : Str), r)
        match findTriple u2 with
        | some k =>
          some ("<pre>".data ++ trimChars (u2.take k) ++ "</pre>".data,
                c :: '\x60' :: '\x60' :: (w ++ nl ++ u2.take k ++ "\x60\x60\x60".data),
                u2.drop (k + 3))
        | none => none
      | _ => none
    else none

/-- Pass 5: inline code `/\x60([^\x60\n]+)\x60/g` → `<code>$1</code>`. -/
def tmInlineCode (_prev : Option Char) (l : Str) : Option (Str × Str × Str) :=
  match l with
  | [] => none
  | c :: t =>
    if c = '\x60' then
      let r := t.takeWhile (fun x => x != '\x60' && x != '\n')
      match t.drop r.length with
      | '\x60' :: rest =>
        if r.isEmpty then none
        else some ("<code>".data ++ r ++ "</code>".data, c :: r ++ ['\x60'], rest)
      | _ => none
    else none

/-- Pass 6: bold `/\*\*([^*]+)\*\*/g` → `<b>$1</b>`. -/
def tmBoldStar (_prev : Option Char) (l : Str) : Option (Str × Str × Str) :=
  match l with
  | [] => none
  | c :: t =>
    if c = '*' then
      match t with
      | '*' :: u =>
        let r := u.takeWhile (fun x => x != '*')
        match u.drop r.length with
        | '*' :: '*' :: rest =>
          if r.isEmpty then none
          else some ("<b>".data ++ r ++ "</b>".data, c :: '*' :: r ++ "**".data, rest)
        | _ => none
      | _ => none
    else none

/-- Pass 7: bold `/__([^_]+)__/g` → `<b>$1</b>`. -/
def tmBoldUnder (_prev : Option Char) (l : Str) : Option (Str × Str × Str) :=
  match l with
  | [] => none
  | c :: t =>
    if c = '_' then
      match t with
      | '_' :: u =>
        let r := u.takeWhile (fun x => x != '_')
        match u.drop r.length with
        | '_' :: '_' :: rest =>
          if r.isEmpty then none
          else some ("<b>".data ++ r ++ "</b>".data, c :: '_' :: r ++ "__".data, rest)
        | _ => none
      | _ => none
    else none

/-- ASCII letter test `[a-zA-Z]` of the italic lookarounds. -/
def isAsciiLetter (c : Char) : Bool :=
  ('a' ≤ c && c ≤ 'z') || ('A' ≤ c && c ≤ 'Z')

/-- Lookbehind `(?<![a-zA-Z])`. -/
def prevIsLetter : Option Char → Bool
  | some c => isAsciiLetter c
  | none => false

/-- Lookahead `(?![a-zA-Z])`. -/
def headIsLetter : Str → Bool
  | c :: _ => isAsciiLetter c
  | [] => false

/-- Pass 8: italic `/(?<![a-zA-Z])\*([^*\n]+)\*(?![a-zA-Z])/g` → `<i>$1</i>`. -/
def tmItalicStar (prev : Option Char) (l : Str) : Option (Str × Str × Str) :=
  match l with
  | [] => none
  | c :: t =>
    if c = '*' then
      if prevIsLetter prev then none
      else
        let r := t.takeWhile (fun x => x != '*' && x != '\n')
        match t.drop r.length with
        | '*' :: rest =>
          if r.isEmpty then none
          else if headIsLetter rest then none
          else some ("<i>".data ++ r ++ "</i>".data, c :: r ++ ['*'], rest)
        | _ => none
    else none

/-- Pass 9: italic `/(?<![a-zA-Z])_([^_\n]+)_(?![a-zA-Z])/g` → `<i>$1</i>`. -/
def tmItalicUnder (prev : Option Char) (l : Str) : Option (Str × Str × Str) :=
  match l with
  | [] => none
  | c :: t =>
    if c = '_' then
      if prevIsLetter prev then none
      else
        let r := t.takeWhile (fun x => x != '_' && x != '\n')
        match t.drop r.length with
        | '_' :: rest =>
          if r.isEmpty then none
          else if headIsLetter rest then none
          else some ("<i>".data ++ r ++ "</i>".data, c :: r ++ ['_'], rest)
        | _ => none
    else none

/-- Pass 10: strikethrough `/~~([^~]+)~~/g` → `<s>$1</s>`. -/
def tmStrike (_prev : Option Char) (l : Str) : Option (Str × Str × Str) :=
  match l with
  | [] => none
  | c :: t =>
    if c = '~' then
      match t with
      | '~' :: u =>
        let r := u.takeWhile (fun x => x != '~')
        match u.drop r.length with
        | '~' :: '~' :: rest =>
          if r.isEmpty then none
          else some ("<s>".data ++ r ++ "</s>".data, c :: '~' :: r ++ "~~".data, rest)
        | _ => none
      | _ => none
    else none

/-- Pass 11: headers `/^#{1,6}\s+(.+)$/gm` → `<b>$1</b>`.  The greedy `\s+`
may cross newlines; when the input ends inside the whitespace run it
backtracks so that `(.+)` can take a non-newline whitespace suffix. -/
def tmHeader (prev : Option Char) (l : Str) : Option (Str × Str × Str) :=
  if lineStart prev then
    match l with
    | [] => none
    | c :: _ =>
      if c = '#' then
        let hs := l.takeWhile (fun x => x = '#')
        if hs.length ≤ 6 then
          let t := l.drop hs.length
          let s := t.takeWhile isJsWs
          let t2 := t.drop s.length
          if s.isEmpty then none
          else
            let content := t2.takeWhile (fun x => x != '\n')
            if !content.isEmpty then
              some ("<b>".data ++ content ++ "</b>".data,
                    hs ++ s ++ content, t2.drop content.length)
            else
              match (List.range s.length).reverse.find? (fun k =>
                  decide (1 ≤ k) && !(s.get? k == some '\n')) with
              | some k =>
                let content2 := (s.drop k).takeWhile (fun x => x != '\n')
                some ("<b>".data ++ content2 ++ "</b>".data,
                      hs ++ s.take k ++ content2,
                      s.drop (k + content2.length) ++ t2)
              | none => none
        else none
      else none
  else none

/-- Pass 12: bullet points `/^[\s]*[-*]\s+/gm` → `'• '`. -/
def tmBullet (prev : Option Char) (l : Str) : Option (Str × Str × Str) :=
  if lineStart prev then
    let s := l.takeWhile isJsWs
    match l.drop s.length with
    | [] => none
    | m :: t =>
      if m = '-' || m = '*' then
        let w := t.takeWhile isJsWs
        if w.isEmpty then none
        else some ("• ".data, s ++ m :: w, t.drop w.length)
      else none
  else none

/-- Pass 13: numbered lists `/^(\d+)\.\s+/gm` → `'$1. '`. -/
def tmNumbered (prev : Option Char) (l : Str) : Option (Str × Str × Str) :=
  if lineStart prev then
    match l with
    | [] => none
    | c :: _ =>
      if c.isDigit then
        let d := l.takeWhile Char.isDigit
        match l.drop d.length with
        | '.' :: t =>
          let w := t.takeWhile isJsWs
          if w.isEmpty then none
          else some (d ++ ". ".data, d ++ '.' :: w, t.drop w.length)
        | _ => none
      else none
  else none

/-- Pass 14: collapse `/\n{3,}/g` → `"\n\n"`. -/
def tmCollapseNL (_prev : Option Char) (l : Str) : Option (Str × Str × Str) :=
  match l with
  | [] => none
  | c :: _ =>
    if c = '\n' then
      let run := l.takeWhile (fun x => x = '\n')
      if 3 ≤ run.length then some ("\n\n".data, run, l.drop run.length) else none
    else none

/-- The newline-collapsing pass on its own (bridge.js line 111). -/
def collapseNewlines (l : Str) : Str := runScan tmCollapseNL l

/-- bridge.js `formatForTelegram` (lines 47-114): the passes applied in source
order, ending with `.trim()`.  An empty input is falsy and yields
`'(Empty response)'`. -/
def formatForTelegram (l : Str) : Str :=
  if l.isEmpty then "(Empty response)".data
  else
    let t1 := l.map mathFontChar
    let t2 := runScan tmTable t1
    let t3 := runScan tmSepLine t2
    let e0 := escapeHtml t3
    let e1 := runScan tmCodeBlock e0
    let e2 := runScan tmInlineCode e1
    let e3 := runScan tmBoldStar e2
    let e4 := runScan tmBoldUnder e3
    let e5 := runScan tmItalicStar e4
    let e6 := runScan tmItalicUnder e5
    let e7 := runScan tmStrike e6
    let e8 := runScan tmHeader e7
    let e9 := runScan tmBullet e8
    let e10 := runScan tmNumbered e9
    let e11 := collapseNewlines e10
    trimChars e11

/-! ### sendMessage chunking (bridge.js lines 227-269) -/

/-- The `while (remaining.length > 0)` chunking loop of `sendMessage`:
successive 4000-character substrings.  Fuel = input length; every iteration
consumes at least one character, so the fuel never runs out. -/
def chunkLoop : Nat → Str → List Str
  | 0, _ => []
  | _ + 1, [] => []
  | fuel + 1, c :: rest =>
    (c :: rest).take 4000 :: chunkLoop fuel ((c :: rest).drop 4000)

/-- The chunk list produced by `sendMessage` for a given text. -/
def chunkText (l : Str) : List Str := chunkLoop l.length l

/-- The message texts actually posted to the transport by `sendMessage`:
falsy/whitespace-only input becomes `'(Empty response)'`; when more than one
chunk exists, each posted text is prefixed with the `[i/n]` part marker and a
newline (bridge.js lines 240-244). -/
def sendMessageWire (text : Str) : List Str :=
  let t := if (trimChars text).isEmpty then "(Empty response)".data else text
  let chunks := chunkText t
  if 1 < chunks.length then
    chunks.enum.map (fun ic =>
      "[".data ++ natStr (ic.1 + 1) ++ "/".data ++ natStr chunks.length ++
      "]\n".data ++ ic.2)
  else chunks

/-! ### Cursor state (bridge.js lines 120-134 and 280-297) -/

/-- bridge.js `loadState`: the persisted `lastUpdateId || 0`; `none` models a
missing state file or a parse failure. -/
def loadState : Option Nat → Nat
  | some n => n
  | none => 0

/-- bridge.js `getUpdates`: the long-poll `offset` parameter is
`lastUpdateId + 1`. -/
def getUpdatesOffset (lastUpdateId : Nat) : Nat := lastUpdateId + 1

/-- The in-memory cursor after processing one batch: `lastUpdateId =
update.update_id` for each update in order (bridge.js line 825). -/
def pollBatchCursor (cur : Nat) (ids : List Nat) : Nat :=
  ids.foldl (fun _ i => i) cur

/-! ### Authorization (bridge.js lines 299-302) -/

/-- bridge.js `isAuthorized`: an empty allowlist denies every chat id;
otherwise membership of `String(chatId)` in the allowlist. -/
def isAuthorized (allowedChatIds : List Str) (chatId : Str) : Bool :=
  if allowedChatIds.length = 0 then false
  else allowedChatIds.contains chatId

/-! ### Watchdog supervisor (watchdog.js) -/

def MAX_RESTARTS : Nat := 5

def RESTART_WINDOW_MS : Nat := 60000

def RESTART_DELAY_MS : Nat := 5000

/-- watchdog.js line 59: prune restart timestamps outside the sliding window. -/
def pruneRestarts (now : Nat) (ts : List Nat) : List Nat :=
  ts.filter (fun t => now - t < RESTART_WINDOW_MS)

/-- watchdog.js `isRestartLoopDetected` (lines 56-66), on the pruned record. -/
def isRestartLoopDetected (now : Nat) (ts : List Nat) : Bool :=
  MAX_RESTARTS ≤ (pruneRestarts now ts).length

inductive WatchdogEvent where
  | spawned (time : Nat)
  | stopped (reason : Str) (exitCode : Nat)
deriving DecidableEq

/-- One invocation of watchdog.js `startBridge` (lines 69-127): prune the
restart record; on a detected loop write `status: 'stopped'` with reason
`'restart_loop'` and `process.exit(1)` without spawning; otherwise record the
current time and spawn the child. -/
def startBridgeStep (now : Nat) (ts : List Nat) : List Nat × WatchdogEvent :=
  let ts' := pruneRestarts now ts
  if MAX_RESTARTS ≤ ts'.length then (ts', .stopped "restart_loop".data 1)
  else (ts' ++ [now], .spawned now)

/-- The supervisor driven by a child that exits nonzero immediately on every
spawn: each crash schedules the next `startBridge` after `RESTART_DELAY_MS`
(watchdog.js line 116).  The trace ends at the terminal `stopped` event. -/
def crashLoopRun : Nat → Nat → List Nat → List WatchdogEvent
  | 0, _, _ => []
  | fuel + 1, now, ts =>
    match startBridgeStep now ts with
    | (ts', .spawned t) => .spawned t :: crashLoopRun fuel (now + RESTART_DELAY_MS) ts'
    | (_, e) => [e]

/-! ### Dispatcher data model (bridge.js lines 174-207, 528-803) -/

structure PendingTask where
  chatId : Int
  text : Str
  username : Str
  mode : Str
deriving DecidableEq

structure BridgeState where
  isProcessing : Bool
  messageQueue : List PendingTask
  allowedChatIds : List Str
  workingDir : Str
  messagesProcessed : Nat
  activeAgents : Nat
deriving DecidableEq

structure InboundMsg where
  chatId : Int
  text : Str
  username : Str
deriving DecidableEq

/-- Observable actions of the dispatcher and the poll loop.  `exited` is the
only event that terminates the process; it is emitted solely by the startup
credential check, never by per-message handling. -/
inductive Event where
  | sent (chatId : Int) (text : Str)
  | taskStarted (mode : Str) (fullPrompt : Str)
  | taskCompleted (mode : Str)
  | parallelStarted (n : Nat)
  | parallelCompleted (n : Nat)
  | savedMessage
  | drainScheduled (t : PendingTask)
  | cursorSaved (updateId : Nat)
  | fetched (offset : Nat)
  | exited (code : Nat)
deriving DecidableEq

/-- External collaborators of the dispatcher.  `exec i p` is the Claude SDK
`query` call for agent index `i` (0 for the single-task path) with full
prompt `p`; `logText` is the contents of `bridge.log` if readable;
`dirExists` is `fs.existsSync`; the remaining fields abstract wall-clock and
floating-point cost interpolations (no claim depends on their values). -/
structure Env where
  exec : Nat → Str → Except Str Str
  logText : Option Str
  dirExists : Str → Bool
  durationSecs : Nat
  uptimeMins : Nat
  costText : Str
  inputKText : Str
  outputKText : Str
  inputCostText : Str
  outputCostText : Str

def MAX_PARALLEL_AGENTS : Nat := 10

/-- bridge.js `SYSTEM_PROMPTS.finance` (lines 309-319). -/
def financeSysPrompt : Str := "You are a quantitative financial analyst and economist with deep expertise in:
- Technical analysis, chart patterns, and trading indicators
- Fundamental analysis and company valuation
- Macroeconomics, monetary policy, and fiscal policy
- Portfolio theory, risk management, and optimization
- Derivatives, options pricing, and hedging strategies
- Cryptocurrency and DeFi analysis
- Statistical modeling and quantitative methods

Format responses cleanly without markdown tables. Use bullet points and clear sections.
Be precise with numbers and always cite data sources when possible.".data

/-- bridge.js `SYSTEM_PROMPTS.dev` (lines 321-330). -/
def devSysPrompt : Str := "You are a senior full-stack developer with expertise in:
- Frontend: React, Vue, Next.js, TypeScript, Tailwind CSS
- Backend: Node.js, Python, Go, REST APIs, GraphQL
- Databases: PostgreSQL, MongoDB, Redis, Supabase
- DevOps: Docker, CI/CD, AWS, Vercel, Netlify
- Mobile: React Native, Flutter
- AI/ML: LangChain, OpenAI API, embeddings, RAG

Write clean, production-ready code. Explain architectural decisions.
Format code blocks properly but avoid markdown tables.".data

/-- bridge.js `SYSTEM_PROMPTS.legal` (lines 332-351). -/
def legalSysPrompt : Str := "You are a legal technology expert working on JudgeFinder - a judicial analytics platform.

Your expertise includes:
- Judicial behavior analysis and prediction
- Court data analytics (California courts, expanding nationally)
- CourtListener and UniCourt API integration
- Legal tech SaaS architecture (Next.js 15, Supabase, Stripe, Clerk)
- SEC compliance (Rule 506(c), Form D, accredited investor verification)
- Subscription agreement drafting and review
- Legal tech product development and pricing strategy

JudgeFinder context:
- 1,800+ judge profiles in California
- 175+ API endpoints
- Three-tier subscription ($29/mo Pro, $299/mo Enterprise)
- B2B legal advertising platform
- 40+ database tables with normalized court data

Format responses professionally. Cite legal sources when applicable.
Avoid markdown tables - use bullet points instead.".data

/-- bridge.js `SYSTEM_PROMPTS.health` (lines 353-373). -/
def healthSysPrompt : Str := "You are a healthcare technology expert specializing in EMS (Emergency Medical Services) applications.

Your expertise includes:
- LA County Prehospital Care Manual (PCM) protocols
- Paramedic decision support systems
- Pediatric dosing calculations (weight-based)
- Medical knowledge base design (BM25 retrieval, MiniSearch)
- PWA development for offline-first medical apps
- HIPAA compliance and medical data security
- OpenAI GPT-4o integration for medical Q&A

Protocol Guide context:
- AI-powered EMS protocol assistant for LA County Fire
- 3,200+ paramedics across 174 fire stations
- 450,000 annual EMS calls
- 810-line medical knowledge base
- Offline-capable PWA with 11MB cached data
- Voice input for hands-free operation

Be precise with medical information. Always emphasize following local protocols.
Format responses clearly without markdown tables.".data

/-- bridge.js `SYSTEM_PROMPTS.judge` (lines 375-395). -/
def judgeSysPrompt : Str := "You are an expert on JudgeFinder - a judicial analytics and transparency platform.

Key capabilities:
- Search 1,800+ California judge profiles
- Analyze judicial behavior patterns and case outcomes
- Access civil, criminal, and family law metrics
- Multi-dimensional bias detection analysis
- Court and jurisdiction data lookup
- Case analytics and outcome predictions

Technical details:
- Next.js 15.5 with React 18.3
- Supabase PostgreSQL database
- Clerk authentication with SSO
- Stripe billing integration
- 175+ REST API endpoints
- Real-time data updates

Help users understand judicial patterns, search for judges, analyze court data,
and leverage the platform\x27s analytics features.
Format responses cleanly without markdown tables.".data

/-- bridge.js `SYSTEM_PROMPTS.default` (line 397). -/
def defaultSysPrompt : Str := "Format responses cleanly for Telegram. Avoid markdown tables - use bullet points or plain text instead. Keep responses focused and well-structured.".data

/-- bridge.js `SYSTEM_PROMPTS[mode] || SYSTEM_PROMPTS.default`. -/
def SYSTEM_PROMPTS (mode : Str) : Str :=
  if mode = "finance".data then financeSysPrompt
  else if mode = "dev".data then devSysPrompt
  else if mode = "legal".data then legalSysPrompt
  else if mode = "health".data then healthSysPrompt
  else if mode = "judge".data then judgeSysPrompt
  else defaultSysPrompt

/-- bridge.js `runClaude` (lines 404-452): compose the full prompt, invoke
the executor, and return `formatForTelegram(result || '(No output)')` on
success or `Error: message` on failure; the `finally` block resets
`isProcessing`/`activeAgents` (reflected by the caller's state update).  The
typing-indicator side channel is not modelled. -/
def runClaudeModel (env : Env) (prompt : Str) (mode : Str) : Str × List Event :=
  let fullPrompt := SYSTEM_PROMPTS mode ++ "\n\n---\n\nUser request: ".data ++ prompt
  match env.exec 0 fullPrompt with
  | .ok result =>
      (formatForTelegram (if result.isEmpty then "(No output)".data else result),
       [.taskStarted mode fullPrompt, .taskCompleted mode])
  | .error e =>
      ("Error: ".data ++ e, [.taskStarted mode fullPrompt, .taskCompleted mode])

/-! ### Parallel agents (bridge.js runParallelAgents, lines 458-522) -/

structure AgentResult where
  index : Nat
  success : Bool
  result : Str
  error : Str
deriving DecidableEq

/-- The composed prompt of agent `i` (0-based): `systemPrompt + "\n\nAgent
(i+1) task: " + prompt` (bridge.js line 472). -/
def agentFullPrompt (mode : Str) (i : Nat) (prompt : Str) : Str :=
  SYSTEM_PROMPTS mode ++ "\n\nAgent ".data ++ natStr (i + 1) ++ " task: ".data ++ prompt

/-- One agent's settled outcome (bridge.js lines 471-492): the inner
try/catch turns success into `{index, success: true, result}` and failure
into `{index, success: false, error}`, so every promise fulfils and
`Promise.allSettled` reports `fulfilled` for each. -/
def settleAgent (env : Env) (mode : Str) (i : Nat) (prompt : Str) : AgentResult :=
  match env.exec (i + 1) (agentFullPrompt mode i prompt) with
  | .ok r => ⟨i + 1, true, r, []⟩
  | .error e => ⟨i + 1, false, [], e⟩

/-- `prompts.map((prompt, index) => ...)`, index-aware. -/
def agentResultsFrom (env : Env) (mode : Str) : Nat → List Str → List AgentResult
  | _, [] => []
  | i, p :: ps => settleAgent env mode i p :: agentResultsFrom env mode (i + 1) ps

/-- All settled agent outcomes, in agent-index order. -/
def agentResults (env : Env) (mode : Str) (prompts : List Str) : List AgentResult :=
  agentResultsFrom env mode 0 prompts

/-- One entry of the combined reply (bridge.js lines 498-509). -/
def renderAgentResult (r : AgentResult) : Str :=
  if r.success then
    "<b>Agent ".data ++ natStr r.index ++ ":</b>\n".data ++
    formatForTelegram r.result ++ "\n\n".data
  else
    "<b>Agent ".data ++ natStr r.index ++ ":</b> Error - ".data ++ r.error ++ "\n\n".data

/-- Header of the combined reply (bridge.js line 496). -/
def agentsHeader (n : Nat) : Str :=
  "<b>Parallel Agents Results (".data ++ natStr n ++ " agents)</b>\n\n".data

/-- The combined reply assembled by the `for (const result of results)` loop. -/
def runParallelAgentsOutput (env : Env) (mode : Str) (prompts : List Str) : Str :=
  (agentResults env mode prompts).foldl
    (fun acc r => acc ++ renderAgentResult r) (agentsHeader prompts.length)

/-- bridge.js `runParallelAgents` as seen by `processMessage`. -/
def runParallelAgentsModel (env : Env) (prompts : List Str) (mode : Str) :
    Str × List Event :=
  (runParallelAgentsOutput env mode prompts,
   [.parallelStarted prompts.length, .parallelCompleted prompts.length])

/-! ### Command replies and processMessage (bridge.js lines 528-803) -/

/-- Reply to an unauthorized requester (bridge.js line 537). -/
def unauthorizedText (chatId : Int) : Str :=
  "Unauthorized. Your chat ID: ".data ++ intStr chatId

/-- The `/start` help message (bridge.js lines 546-562). -/
def startText : Str := "<b>Claude Code Bridge v6</b>

Send any message to Claude. Using Opus 4.5.

<b>Domain Modes:</b>
• /finance [q] - Quant/market analysis
• /dev [q] - Full-stack development
• /legal [q] - Legal tech (JudgeFinder)
• /health [q] - EMS/healthcare (Protocol Guide)
• /judge [q] - Judicial analytics

<b>Power Features:</b>
• /agents [N] [q] - Run N parallel agents
• /cost - View token usage & costs

<b>System:</b>
• /status - Bridge status
• /cd [path] - Change directory
• /logs - View logs".data

/-- The `/status` reply (bridge.js lines 566-577); uptime and session cost
interpolations come from `Env`. -/
def statusText (env : Env) (st : BridgeState) : Str :=
  let status := if st.isProcessing then
      "Processing (".data ++ natStr st.activeAgents ++ " agents)".data
    else "Ready".data
  "<b>Status:</b> ".data ++ status ++
  "\n<b>Directory:</b> ".data ++ st.workingDir ++
  "\n<b>Queue:</b> ".data ++ natStr st.messageQueue.length ++
  " pending\n<b>Processed:</b> ".data ++ natStr st.messagesProcessed ++
  "\n<b>Uptime:</b> ".data ++ natStr env.uptimeMins ++
  " min\n<b>Session Cost:</b> $".data ++ env.costText

/-- The `/cost` reply (bridge.js lines 579-590); the token/cost number
renderings come from `Env`. -/
def costMsgText (env : Env) : Str :=
  "<b>Token Usage (Opus 4.5)</b>\n\n<b>Input:</b> ".data ++ env.inputKText ++
  "K tokens ($".data ++ env.inputCostText ++
  ")\n<b>Output:</b> ".data ++ env.outputKText ++
  "K tokens ($".data ++ env.outputCostText ++
  ")\n<b>Total Cost:</b> $".data ++ env.costText ++
  "\n\n<i>Pricing: $15/MTok input, $75/MTok output</i>".data

/-- `logs.split('\n').slice(-20).join('\n')` (bridge.js line 602). -/
def lastLines (n : Nat) (l : Str) : Str :=
  joinSep "\n".data (((l.splitOn '\n').reverse.take n).reverse)

/-- The `/logs` reply (bridge.js lines 599-608). -/
def logsReplyText (env : Env) : Str :=
  match env.logText with
  | some logs => "<pre>".data ++ escapeHtml (lastLines 20 logs) ++ "</pre>".data
  | none => "No logs available.".data

/-- The queueing reply `Queued (#n)` with the new queue length. -/
def queuedText (n : Nat) : Str :=
  "Queued (#".data ++ natStr n ++ ")".data

/-- The completion footer of the default branch (bridge.js line 792). -/
def completedText (secs : Nat) : Str :=
  "<i>Completed in ".data ++ natStr secs ++ "s</i>".data

/-- The `/agents` usage message (bridge.js lines 731-735). -/
def agentsUsageText : Str := "Usage: /agents [N] [query]

Examples:
• /agents 3 Research the top 3 JS frameworks
• /agents 5 Analyze 5 different stocks".data

/-- JS `parseInt` on a digit string. -/
def natOfDigits (d : Str) : Nat :=
  d.foldl (fun a c => a * 10 + (c.toNat - 48)) 0

/-- The `/agents` regex `/^\/agents\s+(\d+)\s+(.+)$/s` (bridge.js line 729):
returns the digit group and the base-prompt group.  With the `s` flag `.`
also matches newlines, so group 2 runs to the end of the string; when the
remainder after the second whitespace run is empty, the greedy `\s+`
backtracks one character so `(.+)` can still match. -/
def agentsMatch (text : Str) : Option (Str × Str) :=
  if startsWithChars "/agents".data text then
    let r0 := text.drop 7
    let w1 := r0.takeWhile isJsWs
    let r1 := r0.drop w1.length
    let d := r1.takeWhile Char.isDigit
    let r2 := r1.drop d.length
    let w2 := r2.takeWhile isJsWs
    let r3 := r2.drop w2.length
    if w1.isEmpty || d.isEmpty || w2.isEmpty then none
    else if !r3.isEmpty then some (d, r3)
    else if 2 ≤ w2.length then some (d, w2.drop (w2.length - 1))
    else none
  else none

/-- The shared shape of the five domain-mode command branches (bridge.js
lines 623-725): empty prompt → usage reply; busy → enqueue a `PendingTask`
and reply with the new queue position; idle → announce, run the task to
completion, send the response, bump the counter.  No queue drain happens in
these branches (the source `return`s directly). -/
def handleModeCmd (env : Env) (st : BridgeState) (chatId : Int) (username : Str)
    (text : Str) (n : Nat) (mode : Str) (usage : Str) (headLabel : Str) :
    BridgeState × List Event :=
  let prompt := trimChars (text.drop n)
  if prompt.isEmpty then (st, [.sent chatId usage])
  else if st.isProcessing then
    ({st with messageQueue := st.messageQueue ++ [⟨chatId, text, username, mode⟩]},
     [.sent chatId (queuedText (st.messageQueue.length + 1))])
  else
    let rr := runClaudeModel env prompt mode
    ({st with isProcessing := false, activeAgents := 0,
              messagesProcessed := st.messagesProcessed + 1},
     .sent chatId (headLabel ++ prompt.take 50 ++ "...".data) ::
       (rr.2 ++ [.sent chatId rr.1]))

/-- The `===== PARALLEL AGENTS =====` branch (bridge.js lines 728-762):
regex mismatch → usage; `N < 1` → error; busy → the `'Already processing.
Please wait.'` rejection (the request is NOT enqueued); idle → clamp `N`,
build the focus-area prompt variants and run the fan-out. -/
def handleAgents (env : Env) (st : BridgeState) (chatId : Int) (text : Str) :
    BridgeState × List Event :=
  match agentsMatch text with
  | none => (st, [.sent chatId agentsUsageText])
  | some (dg, base) =>
    let numAgents := min (natOfDigits dg) MAX_PARALLEL_AGENTS
    if numAgents < 1 then (st, [.sent chatId "Need at least 1 agent".data])
    else if st.isProcessing then
      (st, [.sent chatId "Already processing. Please wait.".data])
    else
      let basePrompt := trimChars base
      let prompts := (List.range numAgents).map (fun i =>
        basePrompt ++ " (Focus area ".data ++ natStr (i + 1) ++ " of ".data ++
        natStr numAgents ++ ")".data)
      let rr := runParallelAgentsModel env prompts "default".data
      ({st with isProcessing := false, activeAgents := 0,
                messagesProcessed := st.messagesProcessed + numAgents},
       .sent chatId ("<b>Launching ".data ++ natStr numAgents ++
          " parallel agents...</b>\n".data ++ basePrompt.take 100) ::
         (rr.2 ++ [.sent chatId rr.1]))

/-- The `===== DEFAULT MODE =====` branch (bridge.js lines 764-803): busy →
enqueue and reply with the queue position; idle → run the free-form prompt to
completion, record the history entry, send the response and footer, and —
only here — drain the queue when it is non-empty (`setImmediate` scheduling
of the dequeued task, represented by `drainScheduled`). -/
def handleDefault (env : Env) (st : BridgeState) (chatId : Int) (username : Str)
    (text : Str) : BridgeState × List Event :=
  if st.isProcessing then
    ({st with messageQueue :=
        st.messageQueue ++ [⟨chatId, text, username, "default".data⟩]},
     [.sent chatId (queuedText (st.messageQueue.length + 1))])
  else
    let procNote := "Processing: ".data ++ text.take 40 ++
      (if 40 < text.length then "...".data else [])
    let rr := runClaudeModel env text "default".data
    let st1 := {st with isProcessing := false, activeAgents := 0,
                        messagesProcessed := st.messagesProcessed + 1}
    let baseEvs := .sent chatId procNote :: (rr.2 ++
      [.savedMessage, .sent chatId rr.1,
       .sent chatId (completedText env.durationSecs)])
    match st.messageQueue with
    | [] => (st1, baseEvs)
    | next :: restQ =>
      ({st1 with messageQueue := restQ}, baseEvs ++ [.drainScheduled next])

/-- The command cascade of `processMessage` after the trim and authorization
checks (bridge.js lines 545-803), in source order. -/
def dispatchCmd (env : Env) (st : BridgeState) (chatId : Int) (username : Str)
    (text : Str) : BridgeState × List Event :=
  if text = "/start".data then (st, [.sent chatId startText])
  else if text = "/status".data then (st, [.sent chatId (statusText env st)])
  else if text = "/cost".data then (st, [.sent chatId (costMsgText env)])
  else if text = "/stop".data then
    (st, [.sent chatId (if st.isProcessing then
        "Processing cannot be interrupted mid-stream. Wait for completion.".data
      else "Nothing running.".data)])
  else if text = "/logs".data then (st, [.sent chatId (logsReplyText env)])
  else if startsWithChars "/cd ".data text then
    let newDir := trimChars (text.drop 4)
    if env.dirExists newDir then
      ({st with workingDir := newDir},
       [.sent chatId ("Changed to: <code>".data ++ newDir ++ "</code>".data)])
    else (st, [.sent chatId ("Not found: ".data ++ newDir)])
  else if startsWithChars "/finance ".data text then
    handleModeCmd env st chatId username text 9 "finance".data
      "Usage: /finance [query]".data "<b>Financial Analysis:</b> ".data
  else if startsWithChars "/dev ".data text then
    handleModeCmd env st chatId username text 5 "dev".data
      "Usage: /dev [query]".data "<b>Dev Mode:</b> ".data
  else if startsWithChars "/legal ".data text then
    handleModeCmd env st chatId username text 7 "legal".data
      "Usage: /legal [query]\nExpert in legal tech, JudgeFinder, SEC compliance.".data
      "<b>Legal Tech:</b> ".data
  else if startsWithChars "/health ".data text then
    handleModeCmd env st chatId username text 8 "health".data
      "Usage: /health [query]\nEMS protocols, Protocol Guide, paramedic support.".data
      "<b>Healthcare/EMS:</b> ".data
  else if startsWithChars "/judge ".data text then
    handleModeCmd env st chatId username text 7 "judge".data
      "Usage: /judge [query]\nJudicial analytics, search judges, court data.".data
      "<b>Judicial Analytics:</b> ".data
  else if startsWithChars "/agents ".data text then
    handleAgents env st chatId text
  else
    handleDefault env st chatId username text

/-- bridge.js `processMessage` (lines 528-803): trim the text, drop empty
messages, reject unauthorized requesters, then run the command cascade.
Queue draining (lines 795-802) is represented by the `drainScheduled` event:
`setImmediate` schedules the dequeued task without running it inline. -/
def processMessage (env : Env) (st : BridgeState) (msg : InboundMsg) :
    BridgeState × List Event :=
  let text := trimChars msg.text
  if text.isEmpty then (st, [])
  else if !(isAuthorized st.allowedChatIds (intStr msg.chatId)) then
    (st, [.sent msg.chatId (unauthorizedText msg.chatId)])
  else dispatchCmd env st msg.chatId msg.username text

/-! ### Poll loop and startup (bridge.js lines 809-844) -/

structure TgUpdate where
  updateId : Nat
  message : Option InboundMsg
deriving DecidableEq

/-- Per-update body of the poll loop (bridge.js lines 824-830): advance the
in-memory cursor to `update.update_id`, persist it, then forward the message
(if any) to `processMessage` and await it. -/
def pollProcessUpdate (env : Env)
    (acc : (BridgeState × Nat) × List Event) (u : TgUpdate) :
    (BridgeState × Nat) × List Event :=
  match u.message with
  | some m =>
    (((processMessage env acc.1.1 m).1, u.updateId),
     acc.2 ++ .cursorSaved u.updateId :: (processMessage env acc.1.1 m).2)
  | none => ((acc.1.1, u.updateId), acc.2 ++ [.cursorSaved u.updateId])

/-- One iteration body of the `while (true)` poll loop over a fetched batch. -/
def pollBatch (env : Env) (st : BridgeState) (cur : Nat)
    (updates : List TgUpdate) : (BridgeState × Nat) × List Event :=
  updates.foldl (pollProcessUpdate env) ((st, cur), [])

/-- The poll loop run over a sequence of fetched batches: each cycle emits a
`fetched` event carrying the offset `lastUpdateId + 1` it requests, then
processes the whole batch (awaiting each message) before fetching again. -/
def pollLoopTrace (env : Env) : BridgeState → Nat → List (List TgUpdate) → List Event
  | _, _, [] => []
  | st, cur, batch :: batches =>
    .fetched (getUpdatesOffset cur) ::
      ((pollBatch env st cur batch).2 ++
       pollLoopTrace env (pollBatch env st cur batch).1.1
         (pollBatch env st cur batch).1.2 batches)

inductive StartOutcome where
  | exitCode (code : Nat)
  | enterPollLoop
deriving DecidableEq

/-- bridge.js lines 839-844: `if (!BOT_TOKEN) { console.error(...);
process.exit(1); } pollLoop()...` — `none` models an unset
`TELEGRAM_BOT_TOKEN`; the empty string is falsy and exits too. -/
def startBridgeMain (token : Option Str) : StartOutcome :=
  match token with
  | none => .exitCode 1
  | some t => if t.isEmpty then .exitCode 1 else .enterPollLoop

/-! ### Statement-side definitions -/

/-- Does the (trimmed) text match any recognised command branch of the
cascade?  Texts with `isCmdText = false` take the default free-form branch. -/
def isCmdText (text : Str) : Bool :=
  text == "/start".data || text == "/status".data || text == "/cost".data ||
  text == "/stop".data || text == "/logs".data ||
  startsWithChars "/cd ".data text || startsWithChars "/finance ".data text ||
  startsWithChars "/dev ".data text || startsWithChars "/legal ".data text ||
  startsWithChars "/health ".data text || startsWithChars "/judge ".data text ||
  startsWithChars "/agents ".data text

/-- Characters that trigger none of the formatter's markup passes: ASCII
letters, space, newline and neutral punctuation.  This is the formalisation
of "plain text containing no markup syntax" used by the formatter claims. -/
def safeChars : Str :=
  "abcdefghijklmnopqrstuvwxyzABCDEFGHIJKLMNOPQRSTUVWXYZ .,:;!?()\n".data

/-- A concrete environment for the counterexample runs: the executor returns
`"done"` for every call, no log file, no directories. -/
def envEx : Env :=
  { exec := fun _ _ => .ok "done".data
    logText := none
    dirExists := fun _ => false
    durationSecs := 2
    uptimeMins := 0
    costText := "0.0000".data
    inputKText := "0.0".data
    outputKText := "0.0".data
    inputCostText := "0.0000".data
    outputCostText := "0.0000".data }

/-- A five-agent fan-out environment where exactly the call with agent index
4 (the fourth agent, 0-based index 3) fails. -/
def env5 : Env :=
  { envEx with exec := fun i _ => if i = 4 then .error "boom".data else .ok "fine".data }

/-- Five base prompts for the fan-out witness. -/
def prompts5 : List Str := ["a".data, "b".data, "c".data, "d".data, "e".data]

/-- Does an event mark the start of task execution (single or fan-out)? -/
def isTaskStartEvent : Event → Bool
  | .taskStarted _ _ => true
  | .parallelStarted _ => true
  | _ => false

/-- Does an event mark the completion of task execution? -/
def isTaskEndEvent : Event → Bool
  | .taskCompleted _ => true
  | .parallelCompleted _ => true
  | _ => false

/-- Number of task-start events in a trace segment. -/
def startedCount (evs : List Event) : Nat := (evs.filter isTaskStartEvent).length

/-- Number of task-completion events in a trace segment. -/
def completedCount (evs : List Event) : Nat := (evs.filter isTaskEndEvent).length

/-- The possible shapes of the event list returned by one `processMessage`
call: nothing (empty text), a single reply, a mode task run (announce, start,
complete, respond), a fan-out run, or a default-mode run without/with a queue
drain.  Every branch of the dispatcher produces one of these shapes. -/
def eventsShape (c : Int) (evs : List Event) : Prop :=
  evs = [] ∨
  (∃ r, evs = [.sent c r]) ∨
  (∃ mode hd fp r, evs =
    [.sent c hd, .taskStarted mode fp, .taskCompleted mode, .sent c r]) ∨
  (∃ hd k r, evs =
    [.sent c hd, .parallelStarted k, .parallelCompleted k, .sent c r]) ∨
  (∃ hd fp r ct, evs =
    [.sent c hd, .taskStarted "default".data fp, .taskCompleted "default".data,
     .savedMessage, .sent c r, .sent c ct]) ∨
  (∃ hd fp r ct nx, evs =
    [.sent c hd, .taskStarted "default".data fp, .taskCompleted "default".data,
     .savedMessage, .sent c r, .sent c ct, .drainScheduled nx])

/-- A busy dispatcher state with chat id 5 allowlisted. -/
def stBusy : BridgeState :=
  { isProcessing := true, messageQueue := [], allowedChatIds := ["5".data]
    workingDir := "C:".data, messagesProcessed := 0, activeAgents := 1 }

/-- A pending free-form task, queued behind the running one. -/
def someTask : PendingTask := ⟨5, "hello".data, "u".data, "default".data⟩

/-- An idle dispatcher state whose queue still holds `someTask`. -/
def stIdleQ : BridgeState :=
  { isProcessing := false, messageQueue := [someTask], allowedChatIds := ["5".data]
    workingDir := "C:".data, messagesProcessed := 0, activeAgents := 0 }

/-- An idle dispatcher state with an empty queue. -/
def stIdle : BridgeState :=
  { isProcessing := false, messageQueue := [], allowedChatIds := ["5".data]
    workingDir := "C:".data, messagesProcessed := 0, activeAgents := 0 }

/-! ### Shared helper lemmas -/

theorem chunkLoop_length : ∀ (fuel : Nat) (l : Str), l.length ≤ fuel →
    (chunkLoop fuel l).length = (l.length + 3999) / 4000 := by
  intro fuel
  induction fuel with
  | zero =>
    intro l hl
    have hnil : l = [] := List.length_eq_zero.mp (Nat.le_zero.mp hl)
    subst hnil
    simp [chunkLoop]
  | succ n ih =>
    intro l hl
    cases l with
    | nil => simp [chunkLoop]
    | cons a rest =>
      have hlen : ((a :: rest).drop 4000).length ≤ n := by
        simp only [List.length_drop, List.length_cons]
        simp only [List.length_cons] at hl
        omega
      simp only [chunkLoop, List.length_cons, ih _ hlen, List.length_drop,
        List.length_cons]
      omega

theorem chunkLoop_chunk_le : ∀ (fuel : Nat) (l : Str),
    ∀ c ∈ chunkLoop fuel l, c.length ≤ 4000 := by
  intro fuel
  induction fuel with
  | zero => intro l c hc; simp [chunkLoop] at hc
  | succ n ih =>
    intro l c hc
    cases l with
    | nil => simp [chunkLoop] at hc
    | cons a rest =>
      simp only [chunkLoop, List.mem_cons] at hc
      rcases hc with h | h
      · subst h; simp [List.length_take]
      · exact ih _ _ h

theorem chunkLoop_flat : ∀ (fuel : Nat) (l : Str), l.length ≤ fuel →
    (chunkLoop fuel l).foldr (· ++ ·) [] = l := by
  intro fuel
  induction fuel with
  | zero =>
    intro l hl
    have hnil : l = [] := List.length_eq_zero.mp (Nat.le_zero.mp hl)
    subst hnil
    rfl
  | succ n ih =>
    intro l hl
    cases l with
    | nil => rfl
    | cons a rest =>
      have hlen : ((a :: rest).drop 4000).length ≤ n := by
        simp only [List.length_drop, List.length_cons]
        simp only [List.length_cons] at hl
        omega
      simp only [chunkLoop, List.foldr_cons, ih _ hlen]
      exact List.take_append_drop _ _

theorem chunkLoop_nil (fuel : Nat) : chunkLoop fuel [] = [] := by
  cases fuel <;> rfl

theorem chunkLoop_small (fuel : Nat) (l : Str) (h0 : l ≠ [])
    (h4 : l.length ≤ 4000) (hf : 1 ≤ fuel) : chunkLoop fuel l = [l] := by
  cases fuel with
  | zero => omega
  | succ n =>
    cases l with
    | nil => exact absurd rfl h0
    | cons a rest =>
      simp only [chunkLoop]
      rw [List.take_of_length_le h4, List.drop_eq_nil_of_le h4, chunkLoop_nil]

theorem chunkLoop_step (fuel : Nat) (l : Str) (h4 : l ≠ []) (hf : fuel ≠ 0) :
    chunkLoop fuel l = l.take 4000 :: chunkLoop (fuel - 1) (l.drop 4000) := by
  cases fuel with
  | zero => exact absurd rfl hf
  | succ n =>
    cases l with
    | nil => exact absurd rfl h4
    | cons a rest => rfl

theorem dropWhile_replicate_false (p : Char → Bool) (a : Char) (hp : p a = false)
    (n : Nat) : List.dropWhile p (List.replicate n a) = List.replicate n a := by
  cases n with
  | zero => rfl
  | succ m => simp [List.replicate_succ, List.dropWhile_cons, hp]

theorem trimChars_replicate (a : Char) (hp : isJsWs a = false) (n : Nat) :
    trimChars (List.replicate n a) = List.replicate n a := by
  unfold trimChars trimEndChars
  rw [dropWhile_replicate_false _ _ hp, List.reverse_replicate,
      dropWhile_replicate_false _ _ hp, List.reverse_replicate]

theorem chunkText_9001 :
    chunkText (List.replicate 9001 'a') =
      [List.replicate 4000 'a', List.replicate 4000 'a', List.replicate 1001 'a'] := by
  have e1 : (List.replicate 9001 'a').take 4000 = List.replicate 4000 'a' := by
    rw [List.take_replicate]; norm_num
  have e2 : (List.replicate 9001 'a').drop 4000 = List.replicate 5001 'a' := by
    rw [List.drop_replicate]
  have e3 : (List.replicate 5001 'a').take 4000 = List.replicate 4000 'a' := by
    rw [List.take_replicate]; norm_num
  have e4 : (List.replicate 5001 'a').drop 4000 = List.replicate 1001 'a' := by
    rw [List.drop_replicate]
  have hne : (List.replicate 9001 'a') ≠ [] := by
    apply List.ne_nil_of_length_pos; rw [List.length_replicate]; norm_num
  have hne2 : (List.replicate 5001 'a') ≠ [] := by
    apply List.ne_nil_of_length_pos; rw [List.length_replicate]; norm_num
  have hne3 : (List.replicate 1001 'a') ≠ [] := by
    apply List.ne_nil_of_length_pos; rw [List.length_replicate]; norm_num
  unfold chunkText
  rw [List.length_replicate]
  rw [chunkLoop_step 9001 _ hne (by norm_num), e1, e2]
  norm_num
  rw [chunkLoop_step 9000 _ hne2 (by norm_num), e3, e4]
  norm_num
  rw [chunkLoop_small 8999 _ hne3 (by rw [List.length_replicate]; norm_num) (by omega)]

theorem isEmpty_false_of_ne (l : Str) (h : l ≠ []) : l.isEmpty = false := by
  cases l with
  | nil => exact absurd rfl h
  | cons a t => rfl

theorem sendMessageWire_9001 :
    sendMessageWire (List.replicate 9001 'a') =
      ["[1/3]\n".data ++ List.replicate 4000 'a',
       "[2/3]\n".data ++ List.replicate 4000 'a',
       "[3/3]\n".data ++ List.replicate 1001 'a'] := by
  have htrim := trimChars_replicate 'a' (by decide) 9001
  have hne : (List.replicate 9001 'a') ≠ [] := by
    apply List.ne_nil_of_length_pos; rw [List.length_replicate]; norm_num
  simp only [sendMessageWire, htrim, isEmpty_false_of_ne _ hne, Bool.false_eq_true,
    if_false, chunkText_9001]
  norm_num [List.enum, List.enumFrom]
  have n1 : natStr 1 = "1".data := by decide
  have n2 : natStr 2 = "2".data := by decide
  have n3 : natStr 3 = "3".data := by decide
  refine ⟨?_, ?_, ?_⟩ <;> simp only [n1, n2, n3] <;> rfl

/-- C3 (amended): `sendMessage` splits the body into `ceil(length/4000)`
chunks; every chunk BODY is at most 4000 characters and their concatenation
reconstructs the original text; when more than one chunk exists each posted
message is the `[i/n]` marker plus newline prepended to the body — so the
posted message may exceed 4000 characters by the marker length (the body
alone respects the limit, not the marked wire text). -/
theorem c3_amended_chunking (text : Str) (ht : (trimChars text).isEmpty = false) :
    (chunkText text).length = (text.length + 3999) / 4000 ∧
    (∀ c ∈ chunkText text, c.length ≤ 4000) ∧
    (chunkText text).foldr (· ++ ·) [] = text ∧
    (1 < (chunkText text).length →
      sendMessageWire text = (chunkText text).enum.map (fun ic =>
        "[".data ++ natStr (ic.1 + 1) ++ "/".data ++ natStr (chunkText text).length ++
        "]\n".data ++ ic.2)) ∧
    ((chunkText text).length ≤ 1 → sendMessageWire text = chunkText text) := by
  refine ⟨chunkLoop_length _ _ le_rfl, chunkLoop_chunk_le _ _,
    chunkLoop_flat _ _ le_rfl, ?_, ?_⟩
  · intro h1
    simp only [sendMessageWire, ht, Bool.false_eq_true, if_false, h1, if_true]
  · intro h1
    have h2 : ¬(1 < (chunkText text).length) := by omega
    simp only [sendMessageWire, ht, Bool.false_eq_true, if_false, h2]

/-- Witness for C3 (amended) at the single-chunk input `"hello"`. -/
theorem c3_amended_chunking_witness :
    (trimChars "hello".data).isEmpty = false ∧
    ((chunkText "hello".data).length = ("hello".data.length + 3999) / 4000 ∧
     (∀ c ∈ chunkText "hello".data, c.length ≤ 4000) ∧
     (chunkText "hello".data).foldr (· ++ ·) [] = "hello".data ∧
     (1 < (chunkText "hello".data).length →
       sendMessageWire "hello".data = (chunkText "hello".data).enum.map (fun ic =>
         "[".data ++ natStr (ic.1 + 1) ++ "/".data ++
         natStr (chunkText "hello".data).length ++ "]\n".data ++ ic.2)) ∧
     ((chunkText "hello".data).length ≤ 1 →
       sendMessageWire "hello".data = chunkText "hello".data)) :=
  ⟨by decide, c3_amended_chunking "hello".data (by decide)⟩

/-- C3 counterexample: for the 9001-character body the first posted message
is `"[1/3]\n"` plus a 4000-character body — 4006 characters, exceeding the
4000-character transport limit the claim asserts for every posted message. -/
theorem c3_counterexample_wire_over_4000 :
    (sendMessageWire (List.replicate 9001 'a')).length = 3 ∧
    ("[1/3]\n".data ++ List.replicate 4000 'a') ∈ sendMessageWire (List.replicate 9001 'a') ∧
    ("[1/3]\n".data ++ List.replicate 4000 'a').length = 4006 ∧
    ¬(∀ w ∈ sendMessageWire (List.replicate 9001 'a'), w.length ≤ 4000) := by
  have hw := sendMessageWire_9001
  have hlen : ("[1/3]\n".data ++ List.replicate 4000 'a').length = 4006 := by
    rw [List.length_append, List.length_replicate]
    norm_num
  refine ⟨by rw [hw]; rfl, by rw [hw]; exact List.mem_cons_self _ _, hlen, ?_⟩
  intro hall
  have := hall _ (by rw [hw]; exact List.mem_cons_self _ _)
  omega

/-- C6: against a child that exits nonzero immediately on every spawn, the
supervisor spawns exactly 5 = MAX_RESTARTS times, all within the 60-second
window, then records reason `restart_loop` and exits with code 1, and the
trace contains nothing after that terminal event. -/
theorem c6_restart_loop_bound :
    crashLoopRun 100 0 [] =
      [.spawned 0, .spawned 5000, .spawned 10000, .spawned 15000, .spawned 20000,
       .stopped "restart_loop".data 1] ∧
    ((crashLoopRun 100 0 []).filter (fun e => match e with
      | .spawned _ => true | _ => false)).length = 5 ∧
    ((crashLoopRun 100 0 []).filter (fun e => match e with
      | .spawned _ => true | _ => false)).length ≤ MAX_RESTARTS ∧
    ((crashLoopRun 100 0 []).all (fun e => match e with
      | .spawned t => decide (t < RESTART_WINDOW_MS) | _ => true)) = true ∧
    (crashLoopRun 100 0 []).getLast? = some (.stopped "restart_loop".data 1) := by
  decide

/-- C10: an empty allowlist denies every chat identifier, and every inbound
message (with non-empty text) is answered with the unauthorized reply and
nothing else. -/
theorem c10_empty_allowlist_denies :
    (∀ chatId : Str, isAuthorized [] chatId = false) ∧
    (∀ (env : Env) (st : BridgeState) (msg : InboundMsg),
      st.allowedChatIds = [] → (trimChars msg.text).isEmpty = false →
      processMessage env st msg =
        (st, [.sent msg.chatId (unauthorizedText msg.chatId)])) := by
  constructor
  · intro c; rfl
  · intro env st msg hA hT
    simp [processMessage, hT, hA, isAuthorized]

/-- Witness for C10 at a concrete state and message. -/
theorem c10_empty_allowlist_denies_witness :
    isAuthorized [] "5".data = false ∧
    ({stIdle with allowedChatIds := []} : BridgeState).allowedChatIds = [] ∧
    processMessage envEx {stIdle with allowedChatIds := []} ⟨5, "hi".data, "u".data⟩ =
      ({stIdle with allowedChatIds := []}, [.sent 5 (unauthorizedText 5)]) :=
  ⟨c10_empty_allowlist_denies.1 "5".data, rfl,
   c10_empty_allowlist_denies.2 envEx _ ⟨5, "hi".data, "u".data⟩ rfl (by decide)⟩

theorem foldl_cursor_getLastD : ∀ (ids : List Nat) (cur : Nat),
    pollBatchCursor cur ids = ids.getLastD cur := by
  intro ids
  induction ids with
  | nil => intro cur; rfl
  | cons i rest ih =>
    intro cur
    rw [List.getLastD_cons]
    exact ih i

theorem chain_le_getLastD : ∀ (ids : List Nat) (cur : Nat),
    List.Chain (· ≤ ·) cur ids →
    cur ≤ ids.getLastD cur ∧ ∀ id ∈ ids, id ≤ ids.getLastD cur := by
  intro ids
  induction ids with
  | nil => intro cur _; exact ⟨le_rfl, by simp⟩
  | cons i rest ih =>
    intro cur h
    rw [List.chain_cons] at h
    obtain ⟨h1, h2⟩ := h
    have hi := ih i h2
    rw [List.getLastD_cons]
    refine ⟨h1.trans hi.1, ?_⟩
    intro id hid
    rcases List.mem_cons.mp hid with rfl | hm
    · exact hi.1
    · exact hi.2 id hm

/-- C5: polling resumes strictly after the persisted cursor — the next fetch
offset is `persisted + 1`; for a batch of nondecreasing update ids starting
at the current cursor, every processed-and-persisted id is strictly below
the offset requested after a crash-and-restart (`loadState`), and the
persisted cursor sequence never decreases. -/
theorem c5_cursor_resume (cur : Nat) (ids : List Nat)
    (hchain : List.Chain (· ≤ ·) cur ids) :
    getUpdatesOffset (loadState (some (pollBatchCursor cur ids))) =
      pollBatchCursor cur ids + 1 ∧
    cur ≤ pollBatchCursor cur ids ∧
    (∀ id ∈ ids, id < getUpdatesOffset (loadState (some (pollBatchCursor cur ids)))) ∧
    List.Chain' (· ≤ ·) (cur :: ids) := by
  have hfold := foldl_cursor_getLastD ids cur
  have hle := chain_le_getLastD ids cur hchain
  refine ⟨rfl, by rw [hfold]; exact hle.1, ?_, ?_⟩
  · intro id hid
    have h2 := hle.2 id hid
    simp only [getUpdatesOffset, loadState, hfold]
    omega
  · exact hchain

/-- Witness for C5 at the spec's scenario: cursor 4, batch ids [5, 6, 7]. -/
theorem c5_cursor_resume_witness :
    List.Chain (· ≤ ·) 4 [5, 6, 7] ∧
    (getUpdatesOffset (loadState (some (pollBatchCursor 4 [5, 6, 7]))) =
       pollBatchCursor 4 [5, 6, 7] + 1 ∧
     4 ≤ pollBatchCursor 4 [5, 6, 7] ∧
     (∀ id ∈ [5, 6, 7], id <
        getUpdatesOffset (loadState (some (pollBatchCursor 4 [5, 6, 7])))) ∧
     List.Chain' (· ≤ ·) (4 :: [5, 6, 7])) :=
  have hch : List.Chain (· ≤ ·) 4 [5, 6, 7] :=
    List.Chain.cons (by norm_num) (List.Chain.cons (by norm_num)
      (List.Chain.cons (by norm_num) List.Chain.nil))
  ⟨hch, c5_cursor_resume 4 [5, 6, 7] hch⟩

theorem runClaudeModel_snd (env : Env) (p : Str) (m : Str) :
    (runClaudeModel env p m).2 =
      [.taskStarted m (SYSTEM_PROMPTS m ++ "\n\n---\n\nUser request: ".data ++ p),
       .taskCompleted m] := by
  unfold runClaudeModel
  dsimp only
  cases env.exec 0 (SYSTEM_PROMPTS m ++ "\n\n---\n\nUser request: ".data ++ p) <;> rfl

theorem runParallelAgentsModel_snd (env : Env) (ps : List Str) (m : Str) :
    (runParallelAgentsModel env ps m).2 =
      [.parallelStarted ps.length, .parallelCompleted ps.length] := rfl

theorem handleModeCmd_no_exit (env : Env) (st : BridgeState) (c : Int) (u : Str)
    (text : Str) (n : Nat) (mode usage label : Str) (k : Nat) :
    Event.exited k ∉ (handleModeCmd env st c u text n mode usage label).2 := by
  unfold handleModeCmd
  by_cases h1 : (trimChars (List.drop n text)).isEmpty = true
  · simp [h1]
  · by_cases h2 : st.isProcessing = true
    · simp [h1, h2]
    · simp only [h1, h2, Bool.false_eq_true, if_false]
      try dsimp only
      simp only [runClaudeModel_snd]
      simp

theorem handleAgents_no_exit (env : Env) (st : BridgeState) (c : Int)
    (text : Str) (k : Nat) :
    Event.exited k ∉ (handleAgents env st c text).2 := by
  unfold handleAgents
  cases hm : agentsMatch text with
  | none => simp [hm]
  | some db =>
    obtain ⟨dg, base⟩ := db
    simp only [hm]
    try dsimp only
    by_cases h1 : min (natOfDigits dg) MAX_PARALLEL_AGENTS < 1
    · simp [h1]
    · by_cases h2 : st.isProcessing = true
      · simp [h1, h2]
      · simp only [h1, h2, Bool.false_eq_true, if_false]
        simp only [runParallelAgentsModel_snd]
        simp

theorem handleDefault_no_exit (env : Env) (st : BridgeState) (c : Int) (u : Str)
    (text : Str) (k : Nat) :
    Event.exited k ∉ (handleDefault env st c u text).2 := by
  unfold handleDefault
  by_cases h2 : st.isProcessing = true
  · simp [h2]
  · simp only [h2, Bool.false_eq_true, if_false]
    try dsimp only
    cases st.messageQueue with
    | nil => simp only [runClaudeModel_snd]; simp
    | cons nx rq => simp only [runClaudeModel_snd]; simp

theorem dispatchCmd_no_exit (env : Env) (st : BridgeState) (c : Int) (u : Str)
    (text : Str) (k : Nat) :
    Event.exited k ∉ (dispatchCmd env st c u text).2 := by
  unfold dispatchCmd
  by_cases c1 : text = "/start".data
  · rw [if_pos c1]; simp
  rw [if_neg c1]
  by_cases c2 : text = "/status".data
  · rw [if_pos c2]; simp
  rw [if_neg c2]
  by_cases c3 : text = "/cost".data
  · rw [if_pos c3]; simp
  rw [if_neg c3]
  by_cases c4 : text = "/stop".data
  · rw [if_pos c4]; simp
  rw [if_neg c4]
  by_cases c5 : text = "/logs".data
  · rw [if_pos c5]; simp
  rw [if_neg c5]
  by_cases b1 : startsWithChars "/cd ".data text = true
  · rw [if_pos b1]
    dsimp only
    split <;> simp
  rw [if_neg b1]
  by_cases b2 : startsWithChars "/finance ".data text = true
  · rw [if_pos b2]; apply handleModeCmd_no_exit
  rw [if_neg b2]
  by_cases b3 : startsWithChars "/dev ".data text = true
  · rw [if_pos b3]; apply handleModeCmd_no_exit
  rw [if_neg b3]
  by_cases b4 : startsWithChars "/legal ".data text = true
  · rw [if_pos b4]; apply handleModeCmd_no_exit
  rw [if_neg b4]
  by_cases b5 : startsWithChars "/health ".data text = true
  · rw [if_pos b5]; apply handleModeCmd_no_exit
  rw [if_neg b5]
  by_cases b6 : startsWithChars "/judge ".data text = true
  · rw [if_pos b6]; apply handleModeCmd_no_exit
  rw [if_neg b6]
  by_cases b7 : startsWithChars "/agents ".data text = true
  · rw [if_pos b7]; apply handleAgents_no_exit
  rw [if_neg b7]
  apply handleDefault_no_exit

theorem processMessage_no_exit (env : Env) (st : BridgeState) (msg : InboundMsg)
    (k : Nat) : Event.exited k ∉ (processMessage env st msg).2 := by
  unfold processMessage
  dsimp only
  split
  · simp
  split
  · simp
  · exact dispatchCmd_no_exit env st msg.chatId msg.username (trimChars msg.text) k

/-- C9: a missing (or empty, hence falsy) bot token makes startup exit with
code 1 before the poll loop begins; a non-empty token enters the poll loop;
and per-message handling never emits a process-exit event for any input. -/
theorem c9_startup_credential_gate :
    startBridgeMain none = .exitCode 1 ∧
    startBridgeMain (some []) = .exitCode 1 ∧
    (∀ t : Str, t ≠ [] → startBridgeMain (some t) = .enterPollLoop) ∧
    (∀ (env : Env) (st : BridgeState) (msg : InboundMsg) (k : Nat),
      Event.exited k ∉ (processMessage env st msg).2) := by
  refine ⟨rfl, rfl, ?_, ?_⟩
  · intro t ht
    unfold startBridgeMain
    dsimp only
    rw [isEmpty_false_of_ne t ht]
    rfl
  · intro env st msg k
    exact processMessage_no_exit env st msg k

/-- Witness for C9 at the concrete token `"TOKEN"` and a concrete message. -/
theorem c9_startup_credential_gate_witness :
    ("TOKEN".data ≠ ([] : Str)) ∧
    startBridgeMain (some "TOKEN".data) = .enterPollLoop ∧
    Event.exited 1 ∉ (processMessage envEx stIdle ⟨5, "hi".data, "u".data⟩).2 :=
  ⟨by decide, c9_startup_credential_gate.2.2.1 "TOKEN".data (by decide),
   c9_startup_credential_gate.2.2.2 envEx stIdle ⟨5, "hi".data, "u".data⟩ 1⟩

theorem agentResultsFrom_length (env : Env) (mode : Str) :
    ∀ (ps : List Str) (i : Nat),
    (agentResultsFrom env mode i ps).length = ps.length := by
  intro ps
  induction ps with
  | nil => intro i; rfl
  | cons q qs ih => intro i; simp [agentResultsFrom, ih]

theorem agentResultsFrom_get? (env : Env) (mode : Str) :
    ∀ (ps : List Str) (i k : Nat) (p : Str), ps.get? k = some p →
    (agentResultsFrom env mode i ps).get? k =
      some (settleAgent env mode (i + k) p) := by
  intro ps
  induction ps with
  | nil => intro i k p h; simp at h
  | cons q qs ih =>
    intro i k p h
    cases k with
    | zero =>
      simp only [List.get?] at h
      injection h with h
      subst h
      simp [agentResultsFrom]
    | succ k' =>
      simp only [List.get?] at h
      have := ih (i + 1) k' p h
      simp only [agentResultsFrom, List.get?]
      rw [this]
      congr 2
      omega

theorem foldl_append_render : ∀ (rs : List AgentResult) (acc : Str),
    rs.foldl (fun a r => a ++ renderAgentResult r) acc =
      acc ++ (rs.map renderAgentResult).foldr (· ++ ·) [] := by
  intro rs
  induction rs with
  | nil => intro acc; simp
  | cons r rest ih => intro acc; simp [ih, List.append_assoc]

/-- C7: fan-out isolation — the settled result list has exactly one entry per
agent, in agent-index order; the `k`-th entry is determined solely by the
`k`-th agent's own executor outcome (success entries carry the result,
failure entries the error message), and the combined reply is the header
followed by each agent's rendered entry in order.  The assembly is total, so
one agent's failure cannot fail the overall dispatch. -/
theorem c7_fanout_isolation (env : Env) (mode : Str) (prompts : List Str)
    (k : Nat) (p : Str) (hk : prompts.get? k = some p) :
    (agentResults env mode prompts).length = prompts.length ∧
    (agentResults env mode prompts).get? k = some (settleAgent env mode k p) ∧
    (∀ r, env.exec (k + 1) (agentFullPrompt mode k p) = .ok r →
      (agentResults env mode prompts).get? k = some ⟨k + 1, true, r, []⟩) ∧
    (∀ e, env.exec (k + 1) (agentFullPrompt mode k p) = .error e →
      (agentResults env mode prompts).get? k = some ⟨k + 1, false, [], e⟩) ∧
    runParallelAgentsOutput env mode prompts =
      agentsHeader prompts.length ++
        ((agentResults env mode prompts).map renderAgentResult).foldr (· ++ ·) [] := by
  have hlen := agentResultsFrom_length env mode prompts 0
  have hget := agentResultsFrom_get? env mode prompts 0 k p hk
  rw [Nat.zero_add] at hget
  refine ⟨hlen, hget, ?_, ?_, foldl_append_render _ _⟩
  · intro r hr
    unfold agentResults
    rw [hget]
    unfold settleAgent
    rw [hr]
  · intro e he
    unfold agentResults
    rw [hget]
    unfold settleAgent
    rw [he]

/-- Witness for C7: five agents where exactly agent index 3 (0-based) fails —
the settled list marks four successes and one failure, in order. -/
theorem c7_fanout_isolation_witness :
    prompts5.get? 3 = some "d".data ∧
    ((agentResults env5 "default".data prompts5).length = prompts5.length ∧
     (agentResults env5 "default".data prompts5).get? 3 =
       some (settleAgent env5 "default".data 3 "d".data) ∧
     (∀ r, env5.exec 4 (agentFullPrompt "default".data 3 "d".data) = .ok r →
       (agentResults env5 "default".data prompts5).get? 3 = some ⟨4, true, r, []⟩) ∧
     (∀ e, env5.exec 4 (agentFullPrompt "default".data 3 "d".data) = .error e →
       (agentResults env5 "default".data prompts5).get? 3 = some ⟨4, false, [], e⟩) ∧
     runParallelAgentsOutput env5 "default".data prompts5 =
       agentsHeader prompts5.length ++
         ((agentResults env5 "default".data prompts5).map renderAgentResult).foldr
           (· ++ ·) []) ∧
    (agentResults env5 "default".data prompts5).map AgentResult.success =
      [true, true, true, false, true] :=
  ⟨by decide, c7_fanout_isolation env5 "default".data prompts5 3 "d".data (by decide),
   by decide⟩

theorem startsWith_iff_append (pre : Str) : ∀ l : Str,
    startsWithChars pre l = true ↔ ∃ rest, l = pre ++ rest := by
  induction pre with
  | nil =>
    intro l
    constructor
    · intro _; exact ⟨l, rfl⟩
    · intro _; rfl
  | cons a as ih =>
    intro l
    cases l with
    | nil =>
      constructor
      · intro h; exact absurd h (by simp [startsWithChars])
      · rintro ⟨rest, h⟩; exact absurd h (by simp)
    | cons b bs =>
      constructor
      · intro h
        by_cases hab : a = b
        · rw [show startsWithChars (a :: as) (b :: bs) =
              startsWithChars as bs from by rw [startsWithChars, if_pos hab]] at h
          obtain ⟨rest, hr⟩ := (ih bs).mp h
          exact ⟨rest, by rw [List.cons_append, ← hab, hr]⟩
        · rw [show startsWithChars (a :: as) (b :: bs) = false from
              by rw [startsWithChars, if_neg hab]] at h
          exact absurd h (by simp)
      · rintro ⟨rest, h⟩
        rw [List.cons_append] at h
        injection h with h1 h2
        rw [show startsWithChars (a :: as) (b :: bs) =
            startsWithChars as bs from by rw [startsWithChars, if_pos h1.symm]]
        exact (ih bs).mpr ⟨rest, h2⟩

theorem isEmpty_false_of_startsWith (pre l : Str) (hpre : pre ≠ [])
    (h : startsWithChars pre l = true) : l.isEmpty = false := by
  obtain ⟨rest, hr⟩ := (startsWith_iff_append pre l).mp h
  subst hr
  cases pre with
  | nil => exact absurd rfl hpre
  | cons a as => rfl

theorem processMessage_auth (env : Env) (st : BridgeState) (msg : InboundMsg)
    (hne : (trimChars msg.text).isEmpty = false)
    (hauth : isAuthorized st.allowedChatIds (intStr msg.chatId) = true) :
    processMessage env st msg =
      dispatchCmd env st msg.chatId msg.username (trimChars msg.text) := by
  unfold processMessage
  dsimp only
  simp [hne, hauth]

theorem dispatchCmd_finance (env : Env) (st : BridgeState) (c : Int) (u p : Str) :
    dispatchCmd env st c u ("/finance ".data ++ p) =
    handleModeCmd env st c u ("/finance ".data ++ p) 9 "finance".data
      "Usage: /finance [query]".data "<b>Financial Analysis:</b> ".data := rfl

theorem dispatchCmd_dev (env : Env) (st : BridgeState) (c : Int) (u p : Str) :
    dispatchCmd env st c u ("/dev ".data ++ p) =
    handleModeCmd env st c u ("/dev ".data ++ p) 5 "dev".data
      "Usage: /dev [query]".data "<b>Dev Mode:</b> ".data := rfl

theorem dispatchCmd_legal (env : Env) (st : BridgeState) (c : Int) (u p : Str) :
    dispatchCmd env st c u ("/legal ".data ++ p) =
    handleModeCmd env st c u ("/legal ".data ++ p) 7 "legal".data
      "Usage: /legal [query]\nExpert in legal tech, JudgeFinder, SEC compliance.".data
      "<b>Legal Tech:</b> ".data := rfl

theorem dispatchCmd_health (env : Env) (st : BridgeState) (c : Int) (u p : Str) :
    dispatchCmd env st c u ("/health ".data ++ p) =
    handleModeCmd env st c u ("/health ".data ++ p) 8 "health".data
      "Usage: /health [query]\nEMS protocols, Protocol Guide, paramedic support.".data
      "<b>Healthcare/EMS:</b> ".data := rfl

theorem dispatchCmd_judge (env : Env) (st : BridgeState) (c : Int) (u p : Str) :
    dispatchCmd env st c u ("/judge ".data ++ p) =
    handleModeCmd env st c u ("/judge ".data ++ p) 7 "judge".data
      "Usage: /judge [query]\nJudicial analytics, search judges, court data.".data
      "<b>Judicial Analytics:</b> ".data := rfl

theorem dispatchCmd_agents (env : Env) (st : BridgeState) (c : Int) (u rest : Str) :
    dispatchCmd env st c u ("/agents ".data ++ rest) =
    handleAgents env st c ("/agents ".data ++ rest) := rfl

theorem dispatchCmd_default (env : Env) (st : BridgeState) (c : Int) (u text : Str)
    (h : isCmdText text = false) :
    dispatchCmd env st c u text = handleDefault env st c u text := by
  have h1 : ¬(text = "/start".data) := by
    intro he; rw [he] at h; exact absurd h (by decide)
  have h2 : ¬(text = "/status".data) := by
    intro he; rw [he] at h; exact absurd h (by decide)
  have h3 : ¬(text = "/cost".data) := by
    intro he; rw [he] at h; exact absurd h (by decide)
  have h4 : ¬(text = "/stop".data) := by
    intro he; rw [he] at h; exact absurd h (by decide)
  have h5 : ¬(text = "/logs".data) := by
    intro he; rw [he] at h; exact absurd h (by decide)
  have h6 : startsWithChars "/cd ".data text = false := by
    cases hc : startsWithChars "/cd ".data text
    · rfl
    · rw [isCmdText, hc] at h; simp at h
  have h7 : startsWithChars "/finance ".data text = false := by
    cases hc : startsWithChars "/finance ".data text
    · rfl
    · rw [isCmdText, hc] at h; simp at h
  have h8 : startsWithChars "/dev ".data text = false := by
    cases hc : startsWithChars "/dev ".data text
    · rfl
    · rw [isCmdText, hc] at h; simp at h
  have h9 : startsWithChars "/legal ".data text = false := by
    cases hc : startsWithChars "/legal ".data text
    · rfl
    · rw [isCmdText, hc] at h; simp at h
  have h10 : startsWithChars "/health ".data text = false := by
    cases hc : startsWithChars "/health ".data text
    · rfl
    · rw [isCmdText, hc] at h; simp at h
  have h11 : startsWithChars "/judge ".data text = false := by
    cases hc : startsWithChars "/judge ".data text
    · rfl
    · rw [isCmdText, hc] at h; simp at h
  have h12 : startsWithChars "/agents ".data text = false := by
    cases hc : startsWithChars "/agents ".data text
    · rfl
    · rw [isCmdText, hc] at h; simp at h
  unfold dispatchCmd
  rw [if_neg h1, if_neg h2, if_neg h3, if_neg h4, if_neg h5]
  simp only [h6, h7, h8, h9, h10, h11, h12, Bool.false_eq_true, if_false]

theorem handleModeCmd_busy (env : Env) (st : BridgeState) (c : Int) (u text : Str)
    (n : Nat) (mode usage label : Str)
    (hb : st.isProcessing = true)
    (hp : (trimChars (List.drop n text)).isEmpty = false) :
    handleModeCmd env st c u text n mode usage label =
    ({st with messageQueue := st.messageQueue ++ [⟨c, text, u, mode⟩]},
     [.sent c (queuedText (st.messageQueue.length + 1))]) := by
  unfold handleModeCmd
  simp only [hp, Bool.false_eq_true, if_false, hb, if_true]

theorem handleModeCmd_idle (env : Env) (st : BridgeState) (c : Int) (u text : Str)
    (n : Nat) (mode usage label : Str)
    (hb : st.isProcessing = false)
    (hp : (trimChars (List.drop n text)).isEmpty = false) :
    handleModeCmd env st c u text n mode usage label =
    ({st with isProcessing := false, activeAgents := 0,
              messagesProcessed := st.messagesProcessed + 1},
     .sent c (label ++ (trimChars (List.drop n text)).take 50 ++ "...".data) ::
       ((runClaudeModel env (trimChars (List.drop n text)) mode).2 ++
        [.sent c (runClaudeModel env (trimChars (List.drop n text)) mode).1])) := by
  unfold handleModeCmd
  simp only [hp, Bool.false_eq_true, if_false, hb]

theorem handleDefault_busy (env : Env) (st : BridgeState) (c : Int) (u text : Str)
    (hb : st.isProcessing = true) :
    handleDefault env st c u text =
    ({st with messageQueue := st.messageQueue ++ [⟨c, text, u, "default".data⟩]},
     [.sent c (queuedText (st.messageQueue.length + 1))]) := by
  unfold handleDefault
  simp only [hb, if_true]

theorem handleDefault_idle_nilQ (env : Env) (st : BridgeState) (c : Int) (u text : Str)
    (hb : st.isProcessing = false) (hq : st.messageQueue = []) :
    handleDefault env st c u text =
    ({st with isProcessing := false, activeAgents := 0,
              messagesProcessed := st.messagesProcessed + 1},
     .sent c ("Processing: ".data ++ text.take 40 ++
        (if 40 < text.length then "...".data else [])) ::
       ((runClaudeModel env text "default".data).2 ++
        [.savedMessage, .sent c (runClaudeModel env text "default".data).1,
         .sent c (completedText env.durationSecs)])) := by
  unfold handleDefault
  simp only [hb, Bool.false_eq_true, if_false, hq]

theorem handleDefault_idle_consQ (env : Env) (st : BridgeState) (c : Int) (u text : Str)
    (next : PendingTask) (restQ : List PendingTask)
    (hb : st.isProcessing = false) (hq : st.messageQueue = next :: restQ) :
    handleDefault env st c u text =
    ({st with isProcessing := false, activeAgents := 0,
              messagesProcessed := st.messagesProcessed + 1, messageQueue := restQ},
     (.sent c ("Processing: ".data ++ text.take 40 ++
        (if 40 < text.length then "...".data else [])) ::
       ((runClaudeModel env text "default".data).2 ++
        [.savedMessage, .sent c (runClaudeModel env text "default".data).1,
         .sent c (completedText env.durationSecs)])) ++ [.drainScheduled next]) := by
  unfold handleDefault
  simp only [hb, Bool.false_eq_true, if_false, hq]

theorem handleAgents_busy (env : Env) (st : BridgeState) (c : Int) (text dg base : Str)
    (hm : agentsMatch text = some (dg, base))
    (h1 : 1 ≤ min (natOfDigits dg) MAX_PARALLEL_AGENTS)
    (hb : st.isProcessing = true) :
    handleAgents env st c text =
      (st, [.sent c "Already processing. Please wait.".data]) := by
  unfold handleAgents
  rw [hm]
  dsimp only
  rw [if_neg (by omega), if_pos hb]

theorem handleModeCmd_idle_no_drain (env : Env) (st : BridgeState) (c : Int)
    (u text : Str) (n : Nat) (mode usage label : Str)
    (hb : st.isProcessing = false)
    (hp : (trimChars (List.drop n text)).isEmpty = false) :
    (handleModeCmd env st c u text n mode usage label).1.messageQueue =
      st.messageQueue ∧
    (∀ t, Event.drainScheduled t ∉
      (handleModeCmd env st c u text n mode usage label).2) ∧
    Event.taskCompleted mode ∈
      (handleModeCmd env st c u text n mode usage label).2 := by
  rw [handleModeCmd_idle env st c u text n mode usage label hb hp]
  refine ⟨rfl, ?_, ?_⟩
  · intro t
    simp only [runClaudeModel_snd]
    simp
  · simp only [runClaudeModel_snd]
    simp

theorem handleAgents_idle_run (env : Env) (st : BridgeState) (c : Int)
    (text dg base : Str)
    (hm : agentsMatch text = some (dg, base))
    (h1 : 1 ≤ min (natOfDigits dg) MAX_PARALLEL_AGENTS)
    (hb : st.isProcessing = false) :
    (handleAgents env st c text).1.messageQueue = st.messageQueue ∧
    (∀ t, Event.drainScheduled t ∉ (handleAgents env st c text).2) ∧
    Event.parallelCompleted (min (natOfDigits dg) MAX_PARALLEL_AGENTS) ∈
      (handleAgents env st c text).2 := by
  unfold handleAgents
  rw [hm]
  dsimp only
  rw [if_neg (by omega)]
  simp only [hb, Bool.false_eq_true, if_false]
  refine ⟨?_, ?_, ?_⟩
  · trivial
  · intro t
    simp only [runParallelAgentsModel_snd]
    simp
  · simp only [runParallelAgentsModel_snd]
    simp

theorem handleModeCmd_busy_reply (env : Env) (st : BridgeState) (c : Int)
    (u text : Str) (n : Nat) (mode usage label : Str)
    (hb : st.isProcessing = true) :
    ∃ r, (handleModeCmd env st c u text n mode usage label).2 = [.sent c r] := by
  unfold handleModeCmd
  by_cases h1 : (trimChars (List.drop n text)).isEmpty = true
  · exact ⟨usage, by simp [h1]⟩
  · exact ⟨queuedText (st.messageQueue.length + 1), by simp [h1, hb]⟩

theorem handleAgents_busy_reply (env : Env) (st : BridgeState) (c : Int)
    (text : Str) (hb : st.isProcessing = true) :
    ∃ r, (handleAgents env st c text).2 = [.sent c r] := by
  unfold handleAgents
  cases hm : agentsMatch text with
  | none => exact ⟨agentsUsageText, by simp [hm]⟩
  | some db =>
    obtain ⟨dg, base⟩ := db
    simp only [hm]
    try dsimp only
    by_cases h1 : min (natOfDigits dg) MAX_PARALLEL_AGENTS < 1
    · exact ⟨"Need at least 1 agent".data, by simp [h1]⟩
    · exact ⟨"Already processing. Please wait.".data, by simp [h1, hb]⟩

theorem dispatchCmd_busy_reply (env : Env) (st : BridgeState) (c : Int) (u : Str)
    (text : Str) (hb : st.isProcessing = true) :
    ∃ r, (dispatchCmd env st c u text).2 = [.sent c r] := by
  unfold dispatchCmd
  by_cases c1 : text = "/start".data
  · exact ⟨startText, by rw [if_pos c1]⟩
  rw [if_neg c1]
  by_cases c2 : text = "/status".data
  · exact ⟨statusText env st, by rw [if_pos c2]⟩
  rw [if_neg c2]
  by_cases c3 : text = "/cost".data
  · exact ⟨costMsgText env, by rw [if_pos c3]⟩
  rw [if_neg c3]
  by_cases c4 : text = "/stop".data
  · exact ⟨(if st.isProcessing then
        "Processing cannot be interrupted mid-stream. Wait for completion.".data
      else "Nothing running.".data), by rw [if_pos c4]⟩
  rw [if_neg c4]
  by_cases c5 : text = "/logs".data
  · exact ⟨logsReplyText env, by rw [if_pos c5]⟩
  rw [if_neg c5]
  by_cases b1 : startsWithChars "/cd ".data text = true
  · rw [if_pos b1]
    dsimp only
    by_cases hdir : env.dirExists (trimChars (List.drop 4 text)) = true
    · exact ⟨"Changed to: <code>".data ++ trimChars (List.drop 4 text) ++
        "</code>".data, by rw [if_pos hdir]⟩
    · exact ⟨"Not found: ".data ++ trimChars (List.drop 4 text),
        by rw [if_neg hdir]⟩
  rw [if_neg b1]
  by_cases b2 : startsWithChars "/finance ".data text = true
  · rw [if_pos b2]
    exact handleModeCmd_busy_reply env st c u text 9 "finance".data _ _ hb
  rw [if_neg b2]
  by_cases b3 : startsWithChars "/dev ".data text = true
  · rw [if_pos b3]
    exact handleModeCmd_busy_reply env st c u text 5 "dev".data _ _ hb
  rw [if_neg b3]
  by_cases b4 : startsWithChars "/legal ".data text = true
  · rw [if_pos b4]
    exact handleModeCmd_busy_reply env st c u text 7 "legal".data _ _ hb
  rw [if_neg b4]
  by_cases b5 : startsWithChars "/health ".data text = true
  · rw [if_pos b5]
    exact handleModeCmd_busy_reply env st c u text 8 "health".data _ _ hb
  rw [if_neg b5]
  by_cases b6 : startsWithChars "/judge ".data text = true
  · rw [if_pos b6]
    exact handleModeCmd_busy_reply env st c u text 7 "judge".data _ _ hb
  rw [if_neg b6]
  by_cases b7 : startsWithChars "/agents ".data text = true
  · rw [if_pos b7]
    exact handleAgents_busy_reply env st c text hb
  rw [if_neg b7]
  exact ⟨queuedText (st.messageQueue.length + 1),
    by rw [handleDefault_busy env st c u text hb]⟩

theorem processMessage_busy_reply (env : Env) (st : BridgeState)
    (msg : InboundMsg) (hb : st.isProcessing = true) :
    (processMessage env st msg).2 = [] ∨
    ∃ r, (processMessage env st msg).2 = [.sent msg.chatId r] := by
  by_cases he : (trimChars msg.text).isEmpty = true
  · left
    unfold processMessage
    dsimp only
    rw [if_pos he]
  · have hne : (trimChars msg.text).isEmpty = false := by
      revert he
      cases (trimChars msg.text).isEmpty <;> simp
    by_cases ha : isAuthorized st.allowedChatIds (intStr msg.chatId) = true
    · rw [processMessage_auth env st msg hne ha]
      exact Or.inr (dispatchCmd_busy_reply env st msg.chatId msg.username
        (trimChars msg.text) hb)
    · have ha2 : isAuthorized st.allowedChatIds (intStr msg.chatId) = false := by
        revert ha
        cases isAuthorized st.allowedChatIds (intStr msg.chatId) <;> simp
      right
      refine ⟨unauthorizedText msg.chatId, ?_⟩
      unfold processMessage
      dsimp only
      rw [if_neg (by simp [hne])]
      simp [ha2]

theorem handleModeCmd_shape (env : Env) (st : BridgeState) (c : Int)
    (u text : Str) (n : Nat) (mode usage label : Str) :
    eventsShape c (handleModeCmd env st c u text n mode usage label).2 := by
  unfold eventsShape handleModeCmd
  by_cases h1 : (trimChars (List.drop n text)).isEmpty = true
  · exact Or.inr (Or.inl ⟨usage, by simp [h1]⟩)
  · by_cases h2 : st.isProcessing = true
    · exact Or.inr (Or.inl ⟨queuedText (st.messageQueue.length + 1),
        by simp [h1, h2]⟩)
    · refine Or.inr (Or.inr (Or.inl ?_))
      simp only [h1, h2, Bool.false_eq_true, if_false]
      simp only [runClaudeModel_snd]
      exact ⟨mode, _, _, _, rfl⟩

theorem handleAgents_shape (env : Env) (st : BridgeState) (c : Int)
    (text : Str) : eventsShape c (handleAgents env st c text).2 := by
  unfold eventsShape handleAgents
  cases hm : agentsMatch text with
  | none => exact Or.inr (Or.inl ⟨agentsUsageText, by simp [hm]⟩)
  | some db =>
    obtain ⟨dg, base⟩ := db
    simp only [hm]
    try dsimp only
    by_cases h1 : min (natOfDigits dg) MAX_PARALLEL_AGENTS < 1
    · exact Or.inr (Or.inl ⟨"Need at least 1 agent".data, by simp [h1]⟩)
    · by_cases h2 : st.isProcessing = true
      · exact Or.inr (Or.inl ⟨"Already processing. Please wait.".data,
          by simp [h1, h2]⟩)
      · refine Or.inr (Or.inr (Or.inr (Or.inl ?_)))
        simp only [h1, h2, Bool.false_eq_true, if_false]
        simp only [runParallelAgentsModel_snd]
        exact ⟨_, _, _, rfl⟩

theorem handleDefault_shape (env : Env) (st : BridgeState) (c : Int)
    (u text : Str) : eventsShape c (handleDefault env st c u text).2 := by
  unfold eventsShape
  by_cases h2 : st.isProcessing = true
  · exact Or.inr (Or.inl ⟨queuedText (st.messageQueue.length + 1),
      by rw [handleDefault_busy env st c u text h2]⟩)
  · have hb : st.isProcessing = false := by
      revert h2
      cases st.isProcessing <;> simp
    cases hq : st.messageQueue with
    | nil =>
      refine Or.inr (Or.inr (Or.inr (Or.inr (Or.inl ?_))))
      rw [handleDefault_idle_nilQ env st c u text hb hq]
      simp only [runClaudeModel_snd]
      exact ⟨_, _, _, _, rfl⟩
    | cons nx rq =>
      refine Or.inr (Or.inr (Or.inr (Or.inr (Or.inr ?_))))
      rw [handleDefault_idle_consQ env st c u text nx rq hb hq]
      simp only [runClaudeModel_snd]
      exact ⟨_, _, _, _, _, rfl⟩

theorem dispatchCmd_shape (env : Env) (st : BridgeState) (c : Int) (u : Str)
    (text : Str) : eventsShape c (dispatchCmd env st c u text).2 := by
  unfold dispatchCmd
  by_cases c1 : text = "/start".data
  · rw [if_pos c1]
    unfold eventsShape
    exact Or.inr (Or.inl ⟨startText, rfl⟩)
  rw [if_neg c1]
  by_cases c2 : text = "/status".data
  · rw [if_pos c2]
    unfold eventsShape
    exact Or.inr (Or.inl ⟨statusText env st, rfl⟩)
  rw [if_neg c2]
  by_cases c3 : text = "/cost".data
  · rw [if_pos c3]
    unfold eventsShape
    exact Or.inr (Or.inl ⟨costMsgText env, rfl⟩)
  rw [if_neg c3]
  by_cases c4 : text = "/stop".data
  · rw [if_pos c4]
    unfold eventsShape
    exact Or.inr (Or.inl ⟨_, rfl⟩)
  rw [if_neg c4]
  by_cases c5 : text = "/logs".data
  · rw [if_pos c5]
    unfold eventsShape
    exact Or.inr (Or.inl ⟨logsReplyText env, rfl⟩)
  rw [if_neg c5]
  by_cases b1 : startsWithChars "/cd ".data text = true
  · rw [if_pos b1]
    dsimp only
    unfold eventsShape
    by_cases hdir : env.dirExists (trimChars (List.drop 4 text)) = true
    · rw [if_pos hdir]
      exact Or.inr (Or.inl ⟨_, rfl⟩)
    · rw [if_neg hdir]
      exact Or.inr (Or.inl ⟨_, rfl⟩)
  rw [if_neg b1]
  by_cases b2 : startsWithChars "/finance ".data text = true
  · rw [if_pos b2]
    exact handleModeCmd_shape env st c u text 9 "finance".data _ _
  rw [if_neg b2]
  by_cases b3 : startsWithChars "/dev ".data text = true
  · rw [if_pos b3]
    exact handleModeCmd_shape env st c u text 5 "dev".data _ _
  rw [if_neg b3]
  by_cases b4 : startsWithChars "/legal ".data text = true
  · rw [if_pos b4]
    exact handleModeCmd_shape env st c u text 7 "legal".data _ _
  rw [if_neg b4]
  by_cases b5 : startsWithChars "/health ".data text = true
  · rw [if_pos b5]
    exact handleModeCmd_shape env st c u text 8 "health".data _ _
  rw [if_neg b5]
  by_cases b6 : startsWithChars "/judge ".data text = true
  · rw [if_pos b6]
    exact handleModeCmd_shape env st c u text 7 "judge".data _ _
  rw [if_neg b6]
  by_cases b7 : startsWithChars "/agents ".data text = true
  · rw [if_pos b7]
    exact handleAgents_shape env st c text
  rw [if_neg b7]
  exact handleDefault_shape env st c u text

theorem processMessage_shape (env : Env) (st : BridgeState) (msg : InboundMsg) :
    eventsShape msg.chatId (processMessage env st msg).2 := by
  by_cases he : (trimChars msg.text).isEmpty = true
  · unfold processMessage
    dsimp only
    rw [if_pos he]
    unfold eventsShape
    exact Or.inl rfl
  · have hne : (trimChars msg.text).isEmpty = false := by
      revert he
      cases (trimChars msg.text).isEmpty <;> simp
    by_cases ha : isAuthorized st.allowedChatIds (intStr msg.chatId) = true
    · rw [processMessage_auth env st msg hne ha]
      exact dispatchCmd_shape env st msg.chatId msg.username (trimChars msg.text)
    · have ha2 : isAuthorized st.allowedChatIds (intStr msg.chatId) = false := by
        revert ha
        cases isAuthorized st.allowedChatIds (intStr msg.chatId) <;> simp
      unfold processMessage
      dsimp only
      rw [if_neg (by simp [hne])]
      unfold eventsShape
      refine Or.inr (Or.inl ⟨unauthorizedText msg.chatId, ?_⟩)
      simp [ha2]

theorem processMessage_no_fetched (env : Env) (st : BridgeState)
    (msg : InboundMsg) (o : Nat) :
    Event.fetched o ∉ (processMessage env st msg).2 := by
  have h := processMessage_shape env st msg
  unfold eventsShape at h
  rcases h with h | ⟨r, h⟩ | ⟨mode, hd, fp, r, h⟩ | ⟨hd, k, r, h⟩ |
    ⟨hd, fp, r, ct, h⟩ | ⟨hd, fp, r, ct, nx, h⟩ <;> rw [h] <;> simp

theorem startedCount_append (a b : List Event) :
    startedCount (a ++ b) = startedCount a + startedCount b := by
  simp [startedCount, List.filter_append]

theorem completedCount_append (a b : List Event) :
    completedCount (a ++ b) = completedCount a + completedCount b := by
  simp [completedCount, List.filter_append]

theorem startedCount_skip (e : Event) (l : List Event)
    (he : isTaskStartEvent e = false) :
    startedCount (e :: l) = startedCount l := by
  simp [startedCount, List.filter_cons, he]

theorem completedCount_skip (e : Event) (l : List Event)
    (he : isTaskEndEvent e = false) :
    completedCount (e :: l) = completedCount l := by
  simp [completedCount, List.filter_cons, he]

theorem processMessage_balanced (env : Env) (st : BridgeState)
    (msg : InboundMsg) :
    startedCount (processMessage env st msg).2 =
      completedCount (processMessage env st msg).2 := by
  have h := processMessage_shape env st msg
  unfold eventsShape at h
  rcases h with h | ⟨r, h⟩ | ⟨mode, hd, fp, r, h⟩ | ⟨hd, k, r, h⟩ |
    ⟨hd, fp, r, ct, h⟩ | ⟨hd, fp, r, ct, nx, h⟩ <;> rw [h] <;>
    simp [startedCount, completedCount, List.filter_cons,
      isTaskStartEvent, isTaskEndEvent]

theorem processMessage_start_complete (env : Env) (st : BridgeState)
    (msg : InboundMsg) :
    (∀ m fp, Event.taskStarted m fp ∈ (processMessage env st msg).2 →
      Event.taskCompleted m ∈ (processMessage env st msg).2) ∧
    (∀ k, Event.parallelStarted k ∈ (processMessage env st msg).2 →
      Event.parallelCompleted k ∈ (processMessage env st msg).2) := by
  have h := processMessage_shape env st msg
  unfold eventsShape at h
  rcases h with h | ⟨r, h⟩ | ⟨mode, hd, fp0, r, h⟩ | ⟨hd, k0, r, h⟩ |
    ⟨hd, fp0, r, ct, h⟩ | ⟨hd, fp0, r, ct, nx, h⟩ <;> rw [h] <;> constructor
  · intro m fp hmem
    simp at hmem
  · intro k hk
    simp at hk
  · intro m fp hmem
    simp at hmem
  · intro k hk
    simp at hk
  · intro m fp hmem
    simp at hmem
    obtain ⟨rfl, rfl⟩ := hmem
    simp
  · intro k hk
    simp at hk
  · intro m fp hmem
    simp at hmem
  · intro k hk
    simp at hk
    subst hk
    simp
  · intro m fp hmem
    simp at hmem
    obtain ⟨rfl, rfl⟩ := hmem
    simp
  · intro k hk
    simp at hk
  · intro m fp hmem
    simp at hmem
    obtain ⟨rfl, rfl⟩ := hmem
    simp
  · intro k hk
    simp at hk

theorem pollFold_events (env : Env) :
    ∀ (updates : List TgUpdate) (s0 : BridgeState × Nat) (acc : List Event),
    ∃ extra, (updates.foldl (pollProcessUpdate env) (s0, acc)).2 = acc ++ extra ∧
      (∀ o, Event.fetched o ∉ extra) ∧
      startedCount extra = completedCount extra := by
  intro updates
  induction updates with
  | nil =>
    intro s0 acc
    exact ⟨[], by simp, by simp, rfl⟩
  | cons u us ih =>
    intro s0 acc
    cases hu : u.message with
    | none =>
      have hstep : pollProcessUpdate env (s0, acc) u =
          ((s0.1, u.updateId), acc ++ [.cursorSaved u.updateId]) := by
        unfold pollProcessUpdate
        rw [hu]
      obtain ⟨extra, he, hf, hbal⟩ := ih (s0.1, u.updateId)
        (acc ++ [.cursorSaved u.updateId])
      refine ⟨.cursorSaved u.updateId :: extra, ?_, ?_, ?_⟩
      · rw [List.foldl_cons, hstep, he, List.append_assoc]
        rfl
      · intro o
        simp only [List.mem_cons]
        rintro (h | h)
        · exact Event.noConfusion h
        · exact hf o h
      · rw [startedCount_skip (.cursorSaved u.updateId) extra rfl,
            completedCount_skip (.cursorSaved u.updateId) extra rfl]
        exact hbal
    | some m =>
      have hstep : pollProcessUpdate env (s0, acc) u =
          (((processMessage env s0.1 m).1, u.updateId),
           acc ++ .cursorSaved u.updateId :: (processMessage env s0.1 m).2) := by
        unfold pollProcessUpdate
        rw [hu]
      obtain ⟨extra, he, hf, hbal⟩ := ih ((processMessage env s0.1 m).1, u.updateId)
        (acc ++ .cursorSaved u.updateId :: (processMessage env s0.1 m).2)
      refine ⟨.cursorSaved u.updateId :: ((processMessage env s0.1 m).2 ++ extra),
        ?_, ?_, ?_⟩
      · rw [List.foldl_cons, hstep, he, List.append_assoc]
        simp
      · intro o
        simp only [List.mem_cons, List.mem_append]
        rintro (h | h | h)
        · exact Event.noConfusion h
        · exact processMessage_no_fetched env s0.1 m o h
        · exact hf o h
      · rw [startedCount_skip (.cursorSaved u.updateId)
              ((processMessage env s0.1 m).2 ++ extra) rfl,
            completedCount_skip (.cursorSaved u.updateId)
              ((processMessage env s0.1 m).2 ++ extra) rfl,
            startedCount_append, completedCount_append,
            processMessage_balanced env s0.1 m, hbal]

theorem pollBatch_events (env : Env) (st : BridgeState) (cur : Nat)
    (updates : List TgUpdate) :
    (∀ o, Event.fetched o ∉ (pollBatch env st cur updates).2) ∧
    startedCount (pollBatch env st cur updates).2 =
      completedCount (pollBatch env st cur updates).2 := by
  obtain ⟨extra, he, hf, hbal⟩ := pollFold_events env updates (st, cur) []
  unfold pollBatch
  rw [he]
  simp only [List.nil_append]
  exact ⟨hf, hbal⟩

theorem pollLoopTrace_fetch_balanced (env : Env) :
    ∀ (batches : List (List TgUpdate)) (st : BridgeState) (cur : Nat)
      (pre post : List Event) (o : Nat),
    pollLoopTrace env st cur batches = pre ++ .fetched o :: post →
    startedCount pre = completedCount pre := by
  intro batches
  induction batches with
  | nil =>
    intro st cur pre post o h
    rw [show pollLoopTrace env st cur [] = [] from rfl] at h
    cases pre <;> simp at h
  | cons batch batches ih =>
    intro st cur pre post o h
    rw [show pollLoopTrace env st cur (batch :: batches) =
        .fetched (getUpdatesOffset cur) ::
          ((pollBatch env st cur batch).2 ++
           pollLoopTrace env (pollBatch env st cur batch).1.1
             (pollBatch env st cur batch).1.2 batches) from rfl] at h
    obtain ⟨hfB, hbB⟩ := pollBatch_events env st cur batch
    cases pre with
    | nil => rfl
    | cons e pre2 =>
      rw [List.cons_append] at h
      injection h with h1 h2
      subst h1
      rcases List.append_eq_append_iff.mp h2 with ⟨a2, ha1, ha2⟩ | ⟨c2, hc1, hc2⟩
      · have hbA : startedCount a2 = completedCount a2 :=
          ih (pollBatch env st cur batch).1.1 (pollBatch env st cur batch).1.2
            a2 post o ha2
        subst ha1
        rw [startedCount_skip (.fetched (getUpdatesOffset cur))
              ((pollBatch env st cur batch).2 ++ a2) rfl,
            completedCount_skip (.fetched (getUpdatesOffset cur))
              ((pollBatch env st cur batch).2 ++ a2) rfl,
            startedCount_append, completedCount_append, hbB, hbA]
      · cases c2 with
        | nil =>
          rw [List.append_nil] at hc1
          subst hc1
          rw [startedCount_skip (.fetched (getUpdatesOffset cur))
                (pollBatch env st cur batch).2 rfl,
              completedCount_skip (.fetched (getUpdatesOffset cur))
                (pollBatch env st cur batch).2 rfl]
          exact hbB
        | cons x c3 =>
          rw [List.cons_append] at hc2
          injection hc2 with hx hrest2
          have hmem : Event.fetched o ∈ (pollBatch env st cur batch).2 := by
            rw [hc1, ← hx]
            exact List.mem_append_right _ (List.mem_cons_self _ _)
          exact absurd hmem (hfB o)

/-- C1 (amended): while the ExecutionSlot is busy, an authorized task request
is appended to the FIFO queue with a `Queued (#position)` reply for every
request form EXCEPT `/agents`: the five domain-mode commands (with non-empty
prompt) and default free-form prompts are enqueued, but a well-formed
`/agents` request (N ≥ 1) is rejected with `'Already processing. Please
wait.'` and is NOT enqueued. -/
theorem c1_amended_busy_enqueue (env : Env) (st : BridgeState) (msg : InboundMsg)
    (hb : st.isProcessing = true)
    (hauth : isAuthorized st.allowedChatIds (intStr msg.chatId) = true) :
    (∀ p, trimChars msg.text = "/finance ".data ++ p →
       (trimChars p).isEmpty = false →
       processMessage env st msg =
         ({st with messageQueue := st.messageQueue ++
             [⟨msg.chatId, trimChars msg.text, msg.username, "finance".data⟩]},
          [.sent msg.chatId (queuedText (st.messageQueue.length + 1))])) ∧
    (∀ p, trimChars msg.text = "/dev ".data ++ p →
       (trimChars p).isEmpty = false →
       processMessage env st msg =
         ({st with messageQueue := st.messageQueue ++
             [⟨msg.chatId, trimChars msg.text, msg.username, "dev".data⟩]},
          [.sent msg.chatId (queuedText (st.messageQueue.length + 1))])) ∧
    (∀ p, trimChars msg.text = "/legal ".data ++ p →
       (trimChars p).isEmpty = false →
       processMessage env st msg =
         ({st with messageQueue := st.messageQueue ++
             [⟨msg.chatId, trimChars msg.text, msg.username, "legal".data⟩]},
          [.sent msg.chatId (queuedText (st.messageQueue.length + 1))])) ∧
    (∀ p, trimChars msg.text = "/health ".data ++ p →
       (trimChars p).isEmpty = false →
       processMessage env st msg =
         ({st with messageQueue := st.messageQueue ++
             [⟨msg.chatId, trimChars msg.text, msg.username, "health".data⟩]},
          [.sent msg.chatId (queuedText (st.messageQueue.length + 1))])) ∧
    (∀ p, trimChars msg.text = "/judge ".data ++ p →
       (trimChars p).isEmpty = false →
       processMessage env st msg =
         ({st with messageQueue := st.messageQueue ++
             [⟨msg.chatId, trimChars msg.text, msg.username, "judge".data⟩]},
          [.sent msg.chatId (queuedText (st.messageQueue.length + 1))])) ∧
    (isCmdText (trimChars msg.text) = false → (trimChars msg.text).isEmpty = false →
       processMessage env st msg =
         ({st with messageQueue := st.messageQueue ++
             [⟨msg.chatId, trimChars msg.text, msg.username, "default".data⟩]},
          [.sent msg.chatId (queuedText (st.messageQueue.length + 1))])) ∧
    (∀ dg base, agentsMatch (trimChars msg.text) = some (dg, base) →
       1 ≤ min (natOfDigits dg) MAX_PARALLEL_AGENTS →
       startsWithChars "/agents ".data (trimChars msg.text) = true →
       processMessage env st msg =
         (st, [.sent msg.chatId "Already processing. Please wait.".data])) := by
  refine ⟨?_, ?_, ?_, ?_, ?_, ?_, ?_⟩
  · intro p hp hpe
    have hne : (trimChars msg.text).isEmpty = false := by rw [hp]; rfl
    rw [processMessage_auth env st msg hne hauth, hp, dispatchCmd_finance]
    have hdrop : (trimChars (List.drop 9 ("/finance ".data ++ p))).isEmpty = false := by
      rw [show List.drop 9 ("/finance ".data ++ p) = p from rfl]; exact hpe
    rw [handleModeCmd_busy env st msg.chatId msg.username _ 9 _ _ _ hb hdrop]
  · intro p hp hpe
    have hne : (trimChars msg.text).isEmpty = false := by rw [hp]; rfl
    rw [processMessage_auth env st msg hne hauth, hp, dispatchCmd_dev]
    have hdrop : (trimChars (List.drop 5 ("/dev ".data ++ p))).isEmpty = false := by
      rw [show List.drop 5 ("/dev ".data ++ p) = p from rfl]; exact hpe
    rw [handleModeCmd_busy env st msg.chatId msg.username _ 5 _ _ _ hb hdrop]
  · intro p hp hpe
    have hne : (trimChars msg.text).isEmpty = false := by rw [hp]; rfl
    rw [processMessage_auth env st msg hne hauth, hp, dispatchCmd_legal]
    have hdrop : (trimChars (List.drop 7 ("/legal ".data ++ p))).isEmpty = false := by
      rw [show List.drop 7 ("/legal ".data ++ p) = p from rfl]; exact hpe
    rw [handleModeCmd_busy env st msg.chatId msg.username _ 7 _ _ _ hb hdrop]
  · intro p hp hpe
    have hne : (trimChars msg.text).isEmpty = false := by rw [hp]; rfl
    rw [processMessage_auth env st msg hne hauth, hp, dispatchCmd_health]
    have hdrop : (trimChars (List.drop 8 ("/health ".data ++ p))).isEmpty = false := by
      rw [show List.drop 8 ("/health ".data ++ p) = p from rfl]; exact hpe
    rw [handleModeCmd_busy env st msg.chatId msg.username _ 8 _ _ _ hb hdrop]
  · intro p hp hpe
    have hne : (trimChars msg.text).isEmpty = false := by rw [hp]; rfl
    rw [processMessage_auth env st msg hne hauth, hp, dispatchCmd_judge]
    have hdrop : (trimChars (List.drop 7 ("/judge ".data ++ p))).isEmpty = false := by
      rw [show List.drop 7 ("/judge ".data ++ p) = p from rfl]; exact hpe
    rw [handleModeCmd_busy env st msg.chatId msg.username _ 7 _ _ _ hb hdrop]
  · intro hcmd hne
    rw [processMessage_auth env st msg hne hauth,
        dispatchCmd_default env st msg.chatId msg.username _ hcmd,
        handleDefault_busy env st msg.chatId msg.username _ hb]
  · intro dg base hm h1 hsw
    have hne : (trimChars msg.text).isEmpty = false :=
      isEmpty_false_of_startsWith _ _ (by decide) hsw
    obtain ⟨rest, hrest⟩ := (startsWith_iff_append _ _).mp hsw
    rw [processMessage_auth env st msg hne hauth, hrest, dispatchCmd_agents]
    rw [hrest] at hm
    exact handleAgents_busy env st msg.chatId _ dg base hm h1 hb

/-- Witness for C1 (amended): a busy slot enqueues a `/finance` request with
the position reply. -/
theorem c1_amended_busy_enqueue_witness :
    stBusy.isProcessing = true ∧
    isAuthorized stBusy.allowedChatIds (intStr 5) = true ∧
    trimChars "/finance check gold".data = "/finance ".data ++ "check gold".data ∧
    processMessage envEx stBusy ⟨5, "/finance check gold".data, "u".data⟩ =
      ({stBusy with messageQueue := stBusy.messageQueue ++
          [⟨5, trimChars "/finance check gold".data, "u".data, "finance".data⟩]},
       [.sent 5 (queuedText (stBusy.messageQueue.length + 1))]) :=
  ⟨rfl, rfl, by decide,
   (c1_amended_busy_enqueue envEx stBusy ⟨5, "/finance check gold".data, "u".data⟩
      rfl rfl).1 "check gold".data (by decide) (by decide)⟩

/-- C1 counterexample: while busy, a well-formed authorized `/agents` request
is answered with `'Already processing. Please wait.'` and nothing is added to
the queue — it is rejected rather than enqueued, contradicting the claim that
every request form (including `/agents`) is enqueued. -/
theorem c1_counterexample_agents_rejected :
    stBusy.isProcessing = true ∧
    isAuthorized stBusy.allowedChatIds (intStr 5) = true ∧
    processMessage envEx stBusy ⟨5, "/agents 2 hi".data, "u".data⟩ =
      (stBusy, [.sent 5 "Already processing. Please wait.".data]) ∧
    (processMessage envEx stBusy ⟨5, "/agents 2 hi".data, "u".data⟩).1.messageQueue
      = [] := by
  exact ⟨rfl, rfl, by decide, by decide⟩

/-- C2 (amended): the queue is drained only when the just-completed task was
a DEFAULT free-form prompt — then the oldest pending task is dequeued and its
execution scheduled immediately (`drainScheduled`, the `setImmediate` call)
with no further inbound message required.  After any of the five domain-mode
commands (`/finance`, `/dev`, `/legal`, `/health`, `/judge`) or a well-formed
`/agents` fan-out completes, the queue is left untouched and nothing is
scheduled, even when pending tasks exist. -/
theorem c2_amended_drain_only_default (env : Env) (st : BridgeState)
    (msg : InboundMsg) (hb : st.isProcessing = false)
    (hauth : isAuthorized st.allowedChatIds (intStr msg.chatId) = true) :
    (isCmdText (trimChars msg.text) = false → (trimChars msg.text).isEmpty = false →
      ((st.messageQueue = [] →
         (processMessage env st msg).1.messageQueue = [] ∧
         ∀ t, Event.drainScheduled t ∉ (processMessage env st msg).2) ∧
       (∀ next restQ, st.messageQueue = next :: restQ →
         (processMessage env st msg).1.messageQueue = restQ ∧
         Event.drainScheduled next ∈ (processMessage env st msg).2 ∧
         Event.taskCompleted "default".data ∈ (processMessage env st msg).2))) ∧
    (∀ p, trimChars msg.text = "/finance ".data ++ p →
      (trimChars p).isEmpty = false →
      (processMessage env st msg).1.messageQueue = st.messageQueue ∧
      (∀ t, Event.drainScheduled t ∉ (processMessage env st msg).2) ∧
      Event.taskCompleted "finance".data ∈ (processMessage env st msg).2) ∧
    (∀ p, trimChars msg.text = "/dev ".data ++ p →
      (trimChars p).isEmpty = false →
      (processMessage env st msg).1.messageQueue = st.messageQueue ∧
      (∀ t, Event.drainScheduled t ∉ (processMessage env st msg).2) ∧
      Event.taskCompleted "dev".data ∈ (processMessage env st msg).2) ∧
    (∀ p, trimChars msg.text = "/legal ".data ++ p →
      (trimChars p).isEmpty = false →
      (processMessage env st msg).1.messageQueue = st.messageQueue ∧
      (∀ t, Event.drainScheduled t ∉ (processMessage env st msg).2) ∧
      Event.taskCompleted "legal".data ∈ (processMessage env st msg).2) ∧
    (∀ p, trimChars msg.text = "/health ".data ++ p →
      (trimChars p).isEmpty = false →
      (processMessage env st msg).1.messageQueue = st.messageQueue ∧
      (∀ t, Event.drainScheduled t ∉ (processMessage env st msg).2) ∧
      Event.taskCompleted "health".data ∈ (processMessage env st msg).2) ∧
    (∀ p, trimChars msg.text = "/judge ".data ++ p →
      (trimChars p).isEmpty = false →
      (processMessage env st msg).1.messageQueue = st.messageQueue ∧
      (∀ t, Event.drainScheduled t ∉ (processMessage env st msg).2) ∧
      Event.taskCompleted "judge".data ∈ (processMessage env st msg).2) ∧
    (∀ dg base, agentsMatch (trimChars msg.text) = some (dg, base) →
      1 ≤ min (natOfDigits dg) MAX_PARALLEL_AGENTS →
      startsWithChars "/agents ".data (trimChars msg.text) = true →
      (processMessage env st msg).1.messageQueue = st.messageQueue ∧
      (∀ t, Event.drainScheduled t ∉ (processMessage env st msg).2) ∧
      Event.parallelCompleted (min (natOfDigits dg) MAX_PARALLEL_AGENTS) ∈
        (processMessage env st msg).2) := by
  refine ⟨?_, ?_, ?_, ?_, ?_, ?_, ?_⟩
  · intro hcmd hne
    constructor
    · intro hq
      rw [processMessage_auth env st msg hne hauth,
          dispatchCmd_default env st msg.chatId msg.username _ hcmd,
          handleDefault_idle_nilQ env st msg.chatId msg.username _ hb hq]
      refine ⟨hq, ?_⟩
      intro t
      simp only [runClaudeModel_snd]
      simp
    · intro next restQ hq
      rw [processMessage_auth env st msg hne hauth,
          dispatchCmd_default env st msg.chatId msg.username _ hcmd,
          handleDefault_idle_consQ env st msg.chatId msg.username _ next restQ hb hq]
      refine ⟨rfl, ?_, ?_⟩
      · simp
      · simp only [runClaudeModel_snd]
        simp
  · intro p hp hpe
    have hne : (trimChars msg.text).isEmpty = false := by rw [hp]; rfl
    have hdrop : (trimChars (List.drop 9 ("/finance ".data ++ p))).isEmpty = false := by
      rw [show List.drop 9 ("/finance ".data ++ p) = p from rfl]; exact hpe
    rw [processMessage_auth env st msg hne hauth, hp, dispatchCmd_finance]
    exact handleModeCmd_idle_no_drain env st msg.chatId msg.username _ 9 _ _ _ hb hdrop
  · intro p hp hpe
    have hne : (trimChars msg.text).isEmpty = false := by rw [hp]; rfl
    have hdrop : (trimChars (List.drop 5 ("/dev ".data ++ p))).isEmpty = false := by
      rw [show List.drop 5 ("/dev ".data ++ p) = p from rfl]; exact hpe
    rw [processMessage_auth env st msg hne hauth, hp, dispatchCmd_dev]
    exact handleModeCmd_idle_no_drain env st msg.chatId msg.username _ 5 _ _ _ hb hdrop
  · intro p hp hpe
    have hne : (trimChars msg.text).isEmpty = false := by rw [hp]; rfl
    have hdrop : (trimChars (List.drop 7 ("/legal ".data ++ p))).isEmpty = false := by
      rw [show List.drop 7 ("/legal ".data ++ p) = p from rfl]; exact hpe
    rw [processMessage_auth env st msg hne hauth, hp, dispatchCmd_legal]
    exact handleModeCmd_idle_no_drain env st msg.chatId msg.username _ 7 _ _ _ hb hdrop
  · intro p hp hpe
    have hne : (trimChars msg.text).isEmpty = false := by rw [hp]; rfl
    have hdrop : (trimChars (List.drop 8 ("/health ".data ++ p))).isEmpty = false := by
      rw [show List.drop 8 ("/health ".data ++ p) = p from rfl]; exact hpe
    rw [processMessage_auth env st msg hne hauth, hp, dispatchCmd_health]
    exact handleModeCmd_idle_no_drain env st msg.chatId msg.username _ 8 _ _ _ hb hdrop
  · intro p hp hpe
    have hne : (trimChars msg.text).isEmpty = false := by rw [hp]; rfl
    have hdrop : (trimChars (List.drop 7 ("/judge ".data ++ p))).isEmpty = false := by
      rw [show List.drop 7 ("/judge ".data ++ p) = p from rfl]; exact hpe
    rw [processMessage_auth env st msg hne hauth, hp, dispatchCmd_judge]
    exact handleModeCmd_idle_no_drain env st msg.chatId msg.username _ 7 _ _ _ hb hdrop
  · intro dg base hm h1 hsw
    have hne : (trimChars msg.text).isEmpty = false :=
      isEmpty_false_of_startsWith _ _ (by decide) hsw
    obtain ⟨rest, hrest⟩ := (startsWith_iff_append _ _).mp hsw
    rw [processMessage_auth env st msg hne hauth, hrest, dispatchCmd_agents]
    rw [hrest] at hm
    exact handleAgents_idle_run env st msg.chatId _ dg base hm h1 hb

/-- Witness for C2 (amended): an idle slot with one queued task runs a
free-form prompt to completion and immediately schedules the queued task;
a `/dev` completion leaves the queue alone with nothing scheduled; and a
well-formed `/agents` fan-out also completes without draining the queue. -/
theorem c2_amended_drain_only_default_witness :
    stIdleQ.isProcessing = false ∧
    isCmdText (trimChars "hello world".data) = false ∧
    stIdleQ.messageQueue = someTask :: [] ∧
    ((processMessage envEx stIdleQ ⟨5, "hello world".data, "u".data⟩).1.messageQueue = [] ∧
     Event.drainScheduled someTask ∈
       (processMessage envEx stIdleQ ⟨5, "hello world".data, "u".data⟩).2 ∧
     Event.taskCompleted "default".data ∈
       (processMessage envEx stIdleQ ⟨5, "hello world".data, "u".data⟩).2) ∧
    ((processMessage envEx stIdleQ ⟨5, "/dev check".data, "u".data⟩).1.messageQueue =
       stIdleQ.messageQueue ∧
     (∀ t, Event.drainScheduled t ∉
       (processMessage envEx stIdleQ ⟨5, "/dev check".data, "u".data⟩).2) ∧
     Event.taskCompleted "dev".data ∈
       (processMessage envEx stIdleQ ⟨5, "/dev check".data, "u".data⟩).2) ∧
    ((processMessage envEx stIdleQ ⟨5, "/agents 3 scan".data, "u".data⟩).1.messageQueue =
       stIdleQ.messageQueue ∧
     (∀ t, Event.drainScheduled t ∉
       (processMessage envEx stIdleQ ⟨5, "/agents 3 scan".data, "u".data⟩).2) ∧
     Event.parallelCompleted (min (natOfDigits "3".data) MAX_PARALLEL_AGENTS) ∈
       (processMessage envEx stIdleQ ⟨5, "/agents 3 scan".data, "u".data⟩).2) :=
  ⟨rfl, by decide, rfl,
   ((c2_amended_drain_only_default envEx stIdleQ ⟨5, "hello world".data, "u".data⟩
       rfl rfl).1 (by decide) (by decide)).2 someTask [] rfl,
   (c2_amended_drain_only_default envEx stIdleQ ⟨5, "/dev check".data, "u".data⟩
       rfl rfl).2.2.1 "check".data (by decide) (by decide),
   (c2_amended_drain_only_default envEx stIdleQ ⟨5, "/agents 3 scan".data, "u".data⟩
       rfl rfl).2.2.2.2.2.2 "3".data "scan".data (by decide) (by decide) (by decide)⟩

/-- C2 counterexample: a `/finance` task completes while the queue holds a
pending task, yet the queue is not drained — no dequeue happens and no next
task is scheduled, contradicting "for every mode of the just-completed
task". -/
theorem c2_counterexample_mode_completion_no_drain :
    stIdleQ.isProcessing = false ∧
    stIdleQ.messageQueue = [someTask] ∧
    (processMessage envEx stIdleQ ⟨5, "/finance check gold".data, "u".data⟩).1.messageQueue
      = [someTask] ∧
    ((processMessage envEx stIdleQ ⟨5, "/finance check gold".data, "u".data⟩).2.all
      (fun e => match e with | .drainScheduled _ => false | _ => true)) = true ∧
    Event.taskCompleted "finance".data ∈
      (processMessage envEx stIdleQ ⟨5, "/finance check gold".data, "u".data⟩).2 := by
  exact ⟨rfl, rfl, by decide, by decide, by decide⟩

/-- C8 (amended): submission is non-blocking only when the ExecutionSlot is
busy — then `processMessage` returns at once with at most a single reply
(queue-position, rejection, usage, or command answer) and no task events,
for EVERY inbound message.  Whenever task execution does start during a
submission (any mode, and fan-out alike), the matching completion event is
already in the returned event list — `processMessage` runs the task to
completion before returning.  Consequently the poll loop, which awaits
`processMessage` for every update of a batch before calling `getUpdates`
again, is never free to fetch while a task is still executing: in every poll
trace, at every `fetched` event the number of task starts emitted so far
equals the number of task completions. -/
theorem c8_amended_submission_blocking (env : Env) (st : BridgeState)
    (msg : InboundMsg) :
    (st.isProcessing = true →
      (processMessage env st msg).2 = [] ∨
      ∃ r, (processMessage env st msg).2 = [.sent msg.chatId r]) ∧
    (∀ m fp, Event.taskStarted m fp ∈ (processMessage env st msg).2 →
      Event.taskCompleted m ∈ (processMessage env st msg).2) ∧
    (∀ k, Event.parallelStarted k ∈ (processMessage env st msg).2 →
      Event.parallelCompleted k ∈ (processMessage env st msg).2) ∧
    (st.isProcessing = false →
      isAuthorized st.allowedChatIds (intStr msg.chatId) = true →
      isCmdText (trimChars msg.text) = false →
      (trimChars msg.text).isEmpty = false →
      Event.taskCompleted "default".data ∈ (processMessage env st msg).2) ∧
    (∀ (st0 : BridgeState) (cur : Nat) (batches : List (List TgUpdate))
       (pre post : List Event) (o : Nat),
      pollLoopTrace env st0 cur batches = pre ++ .fetched o :: post →
      startedCount pre = completedCount pre) := by
  refine ⟨?_, ?_, ?_, ?_, ?_⟩
  · exact processMessage_busy_reply env st msg
  · exact (processMessage_start_complete env st msg).1
  · exact (processMessage_start_complete env st msg).2
  · intro hb hauth hcmd hne
    rw [processMessage_auth env st msg hne hauth,
        dispatchCmd_default env st msg.chatId msg.username _ hcmd]
    cases hq : st.messageQueue with
    | nil =>
      rw [handleDefault_idle_nilQ env st msg.chatId msg.username _ hb hq]
      simp only [runClaudeModel_snd]
      simp
    | cons nx rq =>
      rw [handleDefault_idle_consQ env st msg.chatId msg.username _ nx rq hb hq]
      simp only [runClaudeModel_snd]
      simp
  · intro st0 cur batches pre post o h
    exact pollLoopTrace_fetch_balanced env batches st0 cur pre post o h

/-- Witness for C8 (amended): a busy slot answers a free-form message with a
single reply; an idle slot runs it to completion before returning; and in a
concrete two-batch poll run the events before the second fetch are balanced. -/
theorem c8_amended_submission_blocking_witness :
    ((processMessage envEx stBusy ⟨5, "hello world".data, "u".data⟩).2 = [] ∨
     ∃ r, (processMessage envEx stBusy ⟨5, "hello world".data, "u".data⟩).2 =
       [.sent 5 r]) ∧
    Event.taskCompleted "default".data ∈
      (processMessage envEx stIdle ⟨5, "hello world".data, "u".data⟩).2 ∧
    startedCount
      [Event.fetched 1, Event.cursorSaved 1,
       Event.sent 5 "Processing: hi there".data,
       Event.taskStarted "default".data (SYSTEM_PROMPTS "default".data ++
         "\n\n---\n\nUser request: ".data ++ "hi there".data),
       Event.taskCompleted "default".data, Event.savedMessage,
       Event.sent 5 "done".data, Event.sent 5 "<i>Completed in 2s</i>".data] =
    completedCount
      [Event.fetched 1, Event.cursorSaved 1,
       Event.sent 5 "Processing: hi there".data,
       Event.taskStarted "default".data (SYSTEM_PROMPTS "default".data ++
         "\n\n---\n\nUser request: ".data ++ "hi there".data),
       Event.taskCompleted "default".data, Event.savedMessage,
       Event.sent 5 "done".data, Event.sent 5 "<i>Completed in 2s</i>".data] :=
  ⟨(c8_amended_submission_blocking envEx stBusy
      ⟨5, "hello world".data, "u".data⟩).1 rfl,
   (c8_amended_submission_blocking envEx stIdle
      ⟨5, "hello world".data, "u".data⟩).2.2.2.1 rfl rfl (by decide) (by decide),
   (c8_amended_submission_blocking envEx stIdle
      ⟨5, "hello world".data, "u".data⟩).2.2.2.2 stIdle 0
     [[⟨1, some ⟨5, "hi there".data, "u".data⟩⟩],
      [⟨2, some ⟨5, "again".data, "u".data⟩⟩]]
     [Event.fetched 1, Event.cursorSaved 1,
      Event.sent 5 "Processing: hi there".data,
      Event.taskStarted "default".data (SYSTEM_PROMPTS "default".data ++
        "\n\n---\n\nUser request: ".data ++ "hi there".data),
      Event.taskCompleted "default".data, Event.savedMessage,
      Event.sent 5 "done".data, Event.sent 5 "<i>Completed in 2s</i>".data]
     [Event.cursorSaved 2,
      Event.sent 5 "Processing: again".data,
      Event.taskStarted "default".data (SYSTEM_PROMPTS "default".data ++
        "\n\n---\n\nUser request: ".data ++ "again".data),
      Event.taskCompleted "default".data, Event.savedMessage,
      Event.sent 5 "done".data, Event.sent 5 "<i>Completed in 2s</i>".data]
     2 (by decide)⟩

/-- C8 counterexample: forwarding an inbound free-form message on an idle
slot returns only AFTER the task completed (the completion event is among the
events emitted before `processMessage` returns), and in a two-batch poll-loop
run the second `fetched` event comes after the first task's `taskCompleted` —
the loop does wait for the in-flight task before fetching the next batch. -/
theorem c8_counterexample_loop_waits_for_completion :
    Event.taskCompleted "default".data ∈
      (processMessage envEx stIdle ⟨5, "hi there".data, "u".data⟩).2 ∧
    (pollLoopTrace envEx stIdle 0
        [[⟨1, some ⟨5, "hi there".data, "u".data⟩⟩],
         [⟨2, some ⟨5, "again".data, "u".data⟩⟩]]).get? 4 =
      some (.taskCompleted "default".data) ∧
    (pollLoopTrace envEx stIdle 0
        [[⟨1, some ⟨5, "hi there".data, "u".data⟩⟩],
         [⟨2, some ⟨5, "again".data, "u".data⟩⟩]]).get? 8 =
      some (.fetched (getUpdatesOffset 1)) := by
  exact ⟨by decide, by decide, by decide⟩

theorem applyRegex_id (tm : Option Char → Str → Option (Str × Str × Str))
    (htm : ∀ prev l, (∀ c ∈ l, c ∈ safeChars) → tm prev l = none) :
    ∀ (fuel : Nat) (prev : Option Char) (l : Str),
    (∀ c ∈ l, c ∈ safeChars) → applyRegex tm fuel prev l = l := by
  intro fuel
  induction fuel with
  | zero => intro prev l _; rfl
  | succ n ih =>
    intro prev l hl
    cases l with
    | nil => rfl
    | cons c rest =>
      rw [show applyRegex tm (n + 1) prev (c :: rest) =
          (match tm prev (c :: rest) with
           | some (repl, consumed, remainder) =>
               repl ++ applyRegex tm n (lastOr consumed prev) remainder
           | none => c :: applyRegex tm n (some c) rest) from rfl]
      rw [htm prev (c :: rest) hl]
      rw [ih (some c) rest (fun x hx => hl x (List.mem_cons_of_mem _ hx))]

theorem runScan_id (tm : Option Char → Str → Option (Str × Str × Str))
    (htm : ∀ prev l, (∀ c ∈ l, c ∈ safeChars) → tm prev l = none)
    (l : Str) (h : ∀ c ∈ l, c ∈ safeChars) : runScan tm l = l :=
  applyRegex_id tm htm l.length none l h

theorem safe_facts (c : Char) (h : c ∈ safeChars) :
    c ≠ '|' ∧ c ≠ '\x60' ∧ c ≠ '*' ∧ c ≠ '_' ∧ c ≠ '~' ∧ c ≠ '#' ∧
    c.isDigit = false ∧ c ≠ '&' ∧ c ≠ '<' ∧ c ≠ '>' ∧ c ≠ '-' := by
  have hall : safeChars.all (fun c => (c != '|') && (c != '\x60') && (c != '*') &&
      (c != '_') && (c != '~') && (c != '#') && (!c.isDigit) && (c != '&') &&
      (c != '<') && (c != '>') && (c != '-')) = true := by decide
  have hc := List.all_eq_true.mp hall c h
  simp only [Bool.and_eq_true, bne_iff_ne, Bool.not_eq_true'] at hc
  tauto

theorem safe_mathFont (c : Char) (h : c ∈ safeChars) : mathFontChar c = c := by
  have hall : safeChars.all (fun c => mathFontChar c == c) = true := by decide
  exact beq_iff_eq.mp (List.all_eq_true.mp hall c h)

theorem map_id_of_fix (f : Char → Char) : ∀ l : Str,
    (∀ c ∈ l, f c = c) → l.map f = l := by
  intro l
  induction l with
  | nil => intro _; rfl
  | cons c rest ih =>
    intro h
    simp only [List.map_cons, h c (List.mem_cons_self c rest),
      ih (fun x hx => h x (List.mem_cons_of_mem _ hx))]

theorem flatMap_id_of_singleton (f : Char → Str) : ∀ l : Str,
    (∀ c ∈ l, f c = [c]) → l.flatMap f = l := by
  intro l
  induction l with
  | nil => intro _; rfl
  | cons c rest ih =>
    intro h
    simp only [List.flatMap_cons, h c (List.mem_cons_self c rest),
      ih (fun x hx => h x (List.mem_cons_of_mem _ hx))]
    rfl

theorem escapeHtml_id (l : Str) (h : ∀ c ∈ l, c ∈ safeChars) : escapeHtml l = l := by
  unfold escapeHtml
  rw [flatMap_id_of_singleton ampRepl l
      (fun c hc => by unfold ampRepl; rw [if_neg (safe_facts c (h c hc)).2.2.2.2.2.2.2.1]),
    flatMap_id_of_singleton ltRepl l
      (fun c hc => by unfold ltRepl; rw [if_neg (safe_facts c (h c hc)).2.2.2.2.2.2.2.2.1]),
    flatMap_id_of_singleton gtRepl l
      (fun c hc => by unfold gtRepl; rw [if_neg (safe_facts c (h c hc)).2.2.2.2.2.2.2.2.2.1])]

theorem tmTable_none (prev : Option Char) (l : Str)
    (h : ∀ c ∈ l, c ∈ safeChars) : tmTable prev l = none := by
  cases l with
  | nil => rfl
  | cons c rest =>
    have hc := (safe_facts c (h c (List.mem_cons_self c rest))).1
    simp [tmTable, hc]

theorem tmSepLine_none (prev : Option Char) (l : Str)
    (h : ∀ c ∈ l, c ∈ safeChars) : tmSepLine prev l = none := by
  unfold tmSepLine
  cases hls : lineStart prev
  · simp [hls]
  · cases l with
    | nil => simp [hls]
    | cons c rest =>
      have hc := (safe_facts c (h c (List.mem_cons_self c rest))).1
      simp [hls, hc]

theorem tmCodeBlock_none (prev : Option Char) (l : Str)
    (h : ∀ c ∈ l, c ∈ safeChars) : tmCodeBlock prev l = none := by
  cases l with
  | nil => rfl
  | cons c rest =>
    have hc := (safe_facts c (h c (List.mem_cons_self c rest))).2.1
    simp [tmCodeBlock, hc]

theorem tmInlineCode_none (prev : Option Char) (l : Str)
    (h : ∀ c ∈ l, c ∈ safeChars) : tmInlineCode prev l = none := by
  cases l with
  | nil => rfl
  | cons c rest =>
    have hc := (safe_facts c (h c (List.mem_cons_self c rest))).2.1
    simp [tmInlineCode, hc]

theorem tmBoldStar_none (prev : Option Char) (l : Str)
    (h : ∀ c ∈ l, c ∈ safeChars) : tmBoldStar prev l = none := by
  cases l with
  | nil => rfl
  | cons c rest =>
    have hc := (safe_facts c (h c (List.mem_cons_self c rest))).2.2.1
    simp [tmBoldStar, hc]

theorem tmBoldUnder_none (prev : Option Char) (l : Str)
    (h : ∀ c ∈ l, c ∈ safeChars) : tmBoldUnder prev l = none := by
  cases l with
  | nil => rfl
  | cons c rest =>
    have hc := (safe_facts c (h c (List.mem_cons_self c rest))).2.2.2.1
    simp [tmBoldUnder, hc]

theorem tmItalicStar_none (prev : Option Char) (l : Str)
    (h : ∀ c ∈ l, c ∈ safeChars) : tmItalicStar prev l = none := by
  cases l with
  | nil => rfl
  | cons c rest =>
    have hc := (safe_facts c (h c (List.mem_cons_self c rest))).2.2.1
    simp [tmItalicStar, hc]

theorem tmItalicUnder_none (prev : Option Char) (l : Str)
    (h : ∀ c ∈ l, c ∈ safeChars) : tmItalicUnder prev l = none := by
  cases l with
  | nil => rfl
  | cons c rest =>
    have hc := (safe_facts c (h c (List.mem_cons_self c rest))).2.2.2.1
    simp [tmItalicUnder, hc]

theorem tmStrike_none (prev : Option Char) (l : Str)
    (h : ∀ c ∈ l, c ∈ safeChars) : tmStrike prev l = none := by
  cases l with
  | nil => rfl
  | cons c rest =>
    have hc := (safe_facts c (h c (List.mem_cons_self c rest))).2.2.2.2.1
    simp [tmStrike, hc]

theorem tmHeader_none (prev : Option Char) (l : Str)
    (h : ∀ c ∈ l, c ∈ safeChars) : tmHeader prev l = none := by
  unfold tmHeader
  cases hls : lineStart prev
  · simp [hls]
  · cases l with
    | nil => simp [hls]
    | cons c rest =>
      have hc := (safe_facts c (h c (List.mem_cons_self c rest))).2.2.2.2.2.1
      simp [hls, hc]

theorem tmBullet_none (prev : Option Char) (l : Str)
    (h : ∀ c ∈ l, c ∈ safeChars) : tmBullet prev l = none := by
  unfold tmBullet
  cases hls : lineStart prev
  · simp [hls]
  · cases hd : l.drop (l.takeWhile isJsWs).length with
    | nil => simp [hls, hd]
    | cons m t =>
      have hm : m ∈ l := by
        have h1 : m ∈ l.drop (l.takeWhile isJsWs).length := by
          rw [hd]; exact List.mem_cons_self m t
        exact List.drop_subset _ _ h1
      have hf := safe_facts m (h m hm)
      simp [hls, hd, hf.2.2.1, hf.2.2.2.2.2.2.2.2.2.2]

theorem tmNumbered_none (prev : Option Char) (l : Str)
    (h : ∀ c ∈ l, c ∈ safeChars) : tmNumbered prev l = none := by
  unfold tmNumbered
  cases hls : lineStart prev
  · simp [hls]
  · cases l with
    | nil => simp [hls]
    | cons c rest =>
      have hc := (safe_facts c (h c (List.mem_cons_self c rest))).2.2.2.2.2.2.1
      simp [hls, hc]

theorem applyRegex_nil (tm : Option Char → Str → Option (Str × Str × Str))
    (fuel : Nat) (prev : Option Char) : applyRegex tm fuel prev [] = [] := by
  cases fuel <;> rfl

theorem tmCollapseNL_none_of_head (prev : Option Char) (c : Char) (rest : Str)
    (hc : c ≠ '\n') : tmCollapseNL prev (c :: rest) = none := by
  simp [tmCollapseNL, hc]

theorem drop_takeWhile_length (p : Char → Bool) : ∀ l : Str,
    l.drop (l.takeWhile p).length = l.dropWhile p := by
  intro l
  induction l with
  | nil => rfl
  | cons c rest ih =>
    cases hp : p c with
    | true => simp [List.takeWhile_cons, List.dropWhile_cons, hp, ih]
    | false => simp [List.takeWhile_cons, List.dropWhile_cons, hp]

theorem collapse_getLast : ∀ (fuel : Nat) (prev : Option Char) (l : Str),
    l ≠ [] → l.getLast? ≠ some '\n' →
    applyRegex tmCollapseNL fuel prev l ≠ [] ∧
    (applyRegex tmCollapseNL fuel prev l).getLast? = l.getLast? := by
  intro fuel
  induction fuel with
  | zero => intro prev l h0 _; exact ⟨h0, rfl⟩
  | succ n ih =>
    intro prev l h0 hlast
    cases l with
    | nil => exact absurd rfl h0
    | cons c rest =>
      rw [show applyRegex tmCollapseNL (n + 1) prev (c :: rest) =
          (match tmCollapseNL prev (c :: rest) with
           | some (repl, consumed, remainder) =>
               repl ++ applyRegex tmCollapseNL n (lastOr consumed prev) remainder
           | none => c :: applyRegex tmCollapseNL n (some c) rest) from rfl]
      cases htm : tmCollapseNL prev (c :: rest) with
      | none =>
        dsimp only
        cases rest with
        | nil =>
          rw [applyRegex_nil]
          exact ⟨by simp, rfl⟩
        | cons d ds =>
          have h2 : (d :: ds).getLast? ≠ some '\n' := by
            rw [← List.getLast?_cons_cons]
            exact hlast
          obtain ⟨hne, hlst⟩ := ih (some c) (d :: ds) (by simp) h2
          cases hres : applyRegex tmCollapseNL n (some c) (d :: ds) with
          | nil => exact absurd hres hne
          | cons e es =>
            rw [hres] at hlst
            refine ⟨by simp, ?_⟩
            rw [List.getLast?_cons_cons, hlst, List.getLast?_cons_cons]
      | some v =>
        obtain ⟨repl, consumed, remainder⟩ := v
        have hinv : c = '\n' ∧
            3 ≤ ((c :: rest).takeWhile (fun x => x = '\n')).length ∧
            repl = "\n\n".data ∧
            consumed = (c :: rest).takeWhile (fun x => x = '\n') ∧
            remainder =
              (c :: rest).drop ((c :: rest).takeWhile (fun x => x = '\n')).length := by
          unfold tmCollapseNL at htm
          dsimp only at htm
          split at htm
          · split at htm
            · injection htm with hv
              simp only [Prod.mk.injEq] at hv
              refine ⟨by assumption, by assumption, hv.1.symm, hv.2.1.symm, hv.2.2.symm⟩
            · exact absurd htm (by simp)
          · exact absurd htm (by simp)
        obtain ⟨hc, h3, hrepl, hcons, hrem⟩ := hinv
        have hdw : remainder = (c :: rest).dropWhile (fun x => x = '\n') := by
          rw [hrem, drop_takeWhile_length]
        have hrem_ne : remainder ≠ [] := by
          intro hemp
          have hsplit := List.takeWhile_append_dropWhile
            (p := fun x => x = '\n') (l := c :: rest)
          rw [← hdw, hemp, List.append_nil] at hsplit
          have hmem : ∀ x ∈ (c :: rest), x = '\n' := by
            intro x hx
            rw [← hsplit] at hx
            have := List.mem_takeWhile_imp hx
            simpa using this
          have hlx := List.getLast?_eq_getLast (c :: rest) (by simp)
          have hmem2 := hmem ((c :: rest).getLast (by simp))
            (List.getLast_mem (by simp))
          rw [hlx, hmem2] at hlast
          exact hlast rfl
        have hlast2 : remainder.getLast? = (c :: rest).getLast? := by
          have hsplit := List.takeWhile_append_dropWhile
            (p := fun x => x = '\n') (l := c :: rest)
          rw [← hdw] at hsplit
          conv_rhs => rw [← hsplit]
          rw [List.getLast?_append_of_ne_nil _ hrem_ne]
        obtain ⟨hne2, hlst2⟩ := ih (lastOr consumed prev) remainder hrem_ne
          (by rw [hlast2]; exact hlast)
        dsimp only
        constructor
        · rw [hrepl]; simp
        · rw [hrepl]
          cases hres : applyRegex tmCollapseNL n (lastOr consumed prev) remainder with
          | nil => exact absurd hres hne2
          | cons e es =>
            rw [hres] at hlst2
            rw [List.getLast?_append_of_ne_nil _ (by simp), hlst2, hlast2]

theorem collapse_head (fuel : Nat) (prev : Option Char) (c : Char) (rest : Str)
    (hc : c ≠ '\n') :
    applyRegex tmCollapseNL (fuel + 1) prev (c :: rest) =
      c :: applyRegex tmCollapseNL fuel (some c) rest := by
  rw [show applyRegex tmCollapseNL (fuel + 1) prev (c :: rest) =
      (match tmCollapseNL prev (c :: rest) with
       | some (repl, consumed, remainder) =>
           repl ++ applyRegex tmCollapseNL fuel (lastOr consumed prev) remainder
       | none => c :: applyRegex tmCollapseNL fuel (some c) rest) from rfl]
  rw [tmCollapseNL_none_of_head prev c rest hc]

theorem trim_eq_self_of_ends (l : Str)
    (h1 : ∀ c, l.head? = some c → isJsWs c = false)
    (h2 : ∀ c, l.getLast? = some c → isJsWs c = false) : trimChars l = l := by
  cases l with
  | nil => rfl
  | cons c rest =>
    have hd : (c :: rest).dropWhile isJsWs = c :: rest := by
      rw [List.dropWhile_cons, h1 c rfl]
      simp
    unfold trimChars
    rw [hd]
    unfold trimEndChars
    cases hr : (c :: rest).reverse with
    | nil => simp at hr
    | cons d ds =>
      have hdlast : (c :: rest).getLast? = some d := by
        rw [← List.head?_reverse, hr]
        rfl
      have hwd := h2 d hdlast
      rw [List.dropWhile_cons, hwd]
      simp only [Bool.false_eq_true, if_false]
      rw [← hr, List.reverse_reverse]

/-- C4 (amended): on non-empty input built solely from markup-free characters
(ASCII letters, neutral punctuation, spaces, newlines) whose first and last
characters are not whitespace, `formatForTelegram` only collapses runs of 3+
newlines — every markup pass is the identity and the output equals the
newline-collapsed input.  (The original claim fails because the final
`.trim()` also strips surrounding whitespace and empty input is replaced by
`'(Empty response)'`.) -/
theorem c4_amended_formatter_plain (l : Str) (h0 : l ≠ [])
    (hsafe : ∀ c ∈ l, c ∈ safeChars)
    (hhead : ∀ c, l.head? = some c → isJsWs c = false)
    (hlast : ∀ c, l.getLast? = some c → isJsWs c = false) :
    formatForTelegram l = collapseNewlines l := by
  unfold formatForTelegram
  simp only [isEmpty_false_of_ne l h0, Bool.false_eq_true, if_false]
  rw [map_id_of_fix mathFontChar l (fun c hc => safe_mathFont c (hsafe c hc)),
      runScan_id tmTable tmTable_none l hsafe,
      runScan_id tmSepLine tmSepLine_none l hsafe,
      escapeHtml_id l hsafe,
      runScan_id tmCodeBlock tmCodeBlock_none l hsafe,
      runScan_id tmInlineCode tmInlineCode_none l hsafe,
      runScan_id tmBoldStar tmBoldStar_none l hsafe,
      runScan_id tmBoldUnder tmBoldUnder_none l hsafe,
      runScan_id tmItalicStar tmItalicStar_none l hsafe,
      runScan_id tmItalicUnder tmItalicUnder_none l hsafe,
      runScan_id tmStrike tmStrike_none l hsafe,
      runScan_id tmHeader tmHeader_none l hsafe,
      runScan_id tmBullet tmBullet_none l hsafe,
      runScan_id tmNumbered tmNumbered_none l hsafe]
  cases l with
  | nil => exact absurd rfl h0
  | cons c rest =>
    have hh := hhead c rfl
    have hcnl : c ≠ '\n' := by
      intro he
      rw [he] at hh
      exact absurd hh (by decide)
    have hln : (c :: rest).getLast? ≠ some '\n' := by
      intro he
      exact absurd (hlast '\n' he) (by decide)
    have hch : collapseNewlines (c :: rest) =
        c :: applyRegex tmCollapseNL rest.length (some c) rest :=
      collapse_head rest.length none c rest hcnl
    obtain ⟨hne, hlst⟩ :=
      collapse_getLast (c :: rest).length none (c :: rest) (by simp) hln
    have hlst' : (collapseNewlines (c :: rest)).getLast? = (c :: rest).getLast? := hlst
    apply trim_eq_self_of_ends
    · intro d hd2
      rw [hch] at hd2
      injection hd2 with hd3
      rw [← hd3]
      exact hh
    · intro d hd2
      rw [hlst'] at hd2
      exact hlast d hd2

/-- Witness for C4 (amended) at a concrete markup-free input containing a
blank line (which is preserved: only 3+ newline runs collapse). -/
theorem c4_amended_formatter_plain_witness :
    ("hi\n\nthere".data ≠ []) ∧
    (∀ c ∈ "hi\n\nthere".data, c ∈ safeChars) ∧
    formatForTelegram "hi\n\nthere".data = collapseNewlines "hi\n\nthere".data ∧
    collapseNewlines "hi\n\nthere".data = "hi\n\nthere".data :=
  ⟨by decide, by decide,
   c4_amended_formatter_plain "hi\n\nthere".data (by decide) (by decide)
     (by decide) (by decide),
   by decide⟩

/-- C4 counterexample: `"a "` contains no markup syntax, yet the formatter
returns `"a"` — the final `.trim()` strips the trailing space, so the output
is not equal to the input modulo blank-line collapsing (the collapse pass
leaves `"a "` unchanged). -/
theorem c4_counterexample_trailing_space :
    (∀ c ∈ "a ".data, c ∈ safeChars) ∧
    collapseNewlines "a ".data = "a ".data ∧
    formatForTelegram "a ".data = "a".data ∧
    formatForTelegram "a ".data ≠ collapseNewlines "a ".data ∧
    formatForTelegram "a ".data ≠ "a ".data := by
  exact ⟨by decide, by decide, by decide, by decide, by decide⟩
